import Mathlib

/-!
Verification of the jkt48-cdn file relay (src/server.js, src/utils/github.js).

The JavaScript source is shallowly embedded below.  Strings are modelled as
lists of characters (`List Char`), byte buffers as lists of naturals
(`List Nat`, each element intended to be below 256), and JavaScript numbers
appearing in the range-parsing path as `Option Int`, where `none` plays the
role of `NaN`.  Network effects of the GitHub contents API are modelled by an
oracle `Nat → GhOutcome` consumed one index per request, together with an
explicit log of issued backend calls, so that call ordering and call counts
are observable.
-/

/-! ### Character classes and JavaScript primitives -/

/-- Decimal digit character, by code point. -/
def isDigitCh (c : Char) : Bool := 48 ≤ c.toNat && c.toNat ≤ 57

/-- JavaScript whitespace characters relevant to parseInt (space, tab, LF, VT, FF, CR). -/
def isWsCh (c : Char) : Bool :=
  c.toNat = 32 || c.toNat = 9 || c.toNat = 10 || c.toNat = 11 || c.toNat = 12 || c.toNat = 13

/-- ASCII alphanumeric character (the regex class [a-zA-Z0-9]). -/
def isAlnumCh (c : Char) : Bool :=
  isDigitCh c || (97 ≤ c.toNat && c.toNat ≤ 122) || (65 ≤ c.toNat && c.toNat ≤ 90)

/-- Case-insensitive hex digit (the regex class [a-f0-9] under the i flag). -/
def isHexICh (c : Char) : Bool :=
  isDigitCh c || (97 ≤ c.toNat && c.toNat ≤ 102) || (65 ≤ c.toNat && c.toNat ≤ 70)

/-- Lowercase alphanumeric character (the classes [a-f0-9] and [a-z0-9]). -/
def isLowerAlnumCh (c : Char) : Bool :=
  isDigitCh c || (97 ≤ c.toNat && c.toNat ≤ 122)

/-- Drop leading JavaScript whitespace, as parseInt does. -/
def skipWs : List Char → List Char
  | [] => []
  | c :: cs => if isWsCh c then skipWs cs else c :: cs

/-- Accumulate a decimal value over a digit prefix, stopping at the first
non-digit, as parseInt does after consuming the sign. -/
def parseDigitsAcc : List Char → Nat → Nat
  | [], acc => acc
  | c :: cs, acc => if isDigitCh c then parseDigitsAcc cs (10 * acc + (c.toNat - 48)) else acc

/-- Parse a digit prefix; `none` when the first character is not a digit
(parseInt then yields NaN). -/
def parseDigitsOpt : List Char → Option Nat
  | [] => none
  | c :: cs => if isDigitCh c then some (parseDigitsAcc cs (c.toNat - 48)) else none

/-- Model of JavaScript parseInt(s, 10): skip whitespace, optional sign,
longest digit prefix; `none` models NaN. -/
def jsParseInt (s : List Char) : Option Int :=
  match skipWs s with
  | [] => none
  | c :: cs =>
    if c = '+' then (parseDigitsOpt cs).map Int.ofNat
    else if c = '-' then (parseDigitsOpt cs).map (fun n => -(Int.ofNat n))
    else (parseDigitsOpt (c :: cs)).map Int.ofNat

/-- Model of String.prototype.split with a single-character separator:
every occurrence splits, empty fields are kept. -/
def splitChar (sep : Char) : List Char → List (List Char)
  | [] => [[]]
  | c :: cs =>
    if c = sep then [] :: splitChar sep cs
    else
      match splitChar sep cs with
      | [] => [[c]]
      | t :: ts => (c :: t) :: ts

/-- Model of String.prototype.replace with a plain-text pattern and empty
replacement: remove the first occurrence of `pat`, if any. -/
def removeFirstOcc (pat : List Char) : List Char → List Char
  | [] => []
  | c :: cs =>
    if pat.isPrefixOf (c :: cs) then (c :: cs).drop pat.length
    else c :: removeFirstOcc pat cs

/-- Model of String.prototype.includes for a plain-text pattern. -/
def containsSubstr (pat : List Char) : List Char → Bool
  | [] => pat.isEmpty
  | c :: cs => pat.isPrefixOf (c :: cs) || containsSubstr pat cs

/-- Digit character for bases up to 36: 0-9 then a-z, as produced by
Number.prototype.toString(radix). -/
def baseDigit (d : Nat) : Char := Char.ofNat (if d < 10 then 48 + d else 87 + d)

/-- Fuel-indexed base-b rendering of a natural number, most significant
digit first.  Structural in the fuel so that it reduces in the kernel. -/
def natToBaseAux (b : Nat) : Nat → Nat → List Char
  | 0, _ => []
  | fuel + 1, n => if n < b then [baseDigit n] else natToBaseAux b fuel (n / b) ++ [baseDigit (n % b)]

/-- Base-b rendering of a natural number (toString(radix) for n and radix b). -/
def natToBase (b n : Nat) : List Char := natToBaseAux b (n + 1) n

/-- Model of String.prototype.slice(-k): last k characters, or the whole
string when it is shorter than k. -/
def sliceLast (k : Nat) (l : List Char) : List Char := l.drop (l.length - k)

/-- Model of String.prototype.toLowerCase restricted to ASCII. -/
def jsToLower (l : List Char) : List Char := l.map Char.toLower

/-- Characters after the last dot of the list, if any dot is present. -/
def extAfterDot : List Char → Option (List Char)
  | [] => none
  | c :: cs =>
    match extAfterDot cs with
    | some r => some r
    | none => if c = '.' then some cs else none

/-- Model of path.extname(name).slice(1): the characters after the last dot,
ignoring a dot in leading position (dotfiles have no extension), empty when
there is no such dot. -/
def extensionOf : List Char → List Char
  | [] => []
  | _ :: cs =>
    match extAfterDot cs with
    | some r => r
    | none => []

/-- Lowercase hex rendering of a byte sequence, two characters per byte,
as produced by Hash.prototype.digest(hex). -/
def hexEncode : List Nat → List Char
  | [] => []
  | b :: bs => baseDigit (b / 16) :: baseDigit (b % 16) :: hexEncode bs

/-! ### Base64 (Buffer.prototype.toString(base64) / Buffer.from(s, base64))

Characters are modelled by their code points (`Nat`), `61` being the pad
character `=`. -/

/-- Standard base64 alphabet: 6-bit value to code point. -/
def b64EncVal (v : Nat) : Nat :=
  if v < 26 then 65 + v
  else if v < 52 then 97 + (v - 26)
  else if v < 62 then 48 + (v - 52)
  else if v = 62 then 43
  else 47

/-- Standard base64 alphabet: code point to 6-bit value. -/
def b64DecVal (c : Nat) : Nat :=
  if 65 ≤ c ∧ c ≤ 90 then c - 65
  else if 97 ≤ c ∧ c ≤ 122 then c - 97 + 26
  else if 48 ≤ c ∧ c ≤ 57 then c - 48 + 52
  else if c = 43 then 62
  else if c = 47 then 63
  else 0

/-- Base64 encoding of a byte sequence, with padding, as the backend
produces for the inline content field. -/
def b64Encode : List Nat → List Nat
  | [] => []
  | [a] => [b64EncVal (a / 4), b64EncVal (a % 4 * 16), 61, 61]
  | [a, b] => [b64EncVal (a / 4), b64EncVal (a % 4 * 16 + b / 16), b64EncVal (b % 16 * 4), 61]
  | a :: b :: c :: rest =>
    b64EncVal (a / 4) :: b64EncVal (a % 4 * 16 + b / 16) ::
      b64EncVal (b % 16 * 4 + c / 64) :: b64EncVal (c % 64) :: b64Encode rest

/-- Base64 decoding of a padded base64 text, as Buffer.from(s, base64)
behaves on well-formed input. -/
def b64Decode : List Nat → List Nat
  | w :: x :: y :: z :: rest =>
    if y = 61 then [b64DecVal w * 4 + b64DecVal x / 16]
    else if z = 61 then
      [b64DecVal w * 4 + b64DecVal x / 16, b64DecVal x % 16 * 16 + b64DecVal y / 4]
    else
      (b64DecVal w * 4 + b64DecVal x / 16) ::
        (b64DecVal x % 16 * 16 + b64DecVal y / 4) ::
        (b64DecVal y % 4 * 64 + b64DecVal z) :: b64Decode rest
  | _ => []

/-! ### JavaScript number comparisons on Option Int (none models NaN) -/

/-- JavaScript `a >= b` where a may be NaN: any comparison with NaN is false. -/
def jsGe (a : Option Int) (b : Int) : Bool :=
  match a with
  | some x => b ≤ x
  | none => false

/-- JavaScript `a > b` where either side may be NaN. -/
def jsGt (a b : Option Int) : Bool :=
  match a, b with
  | some x, some y => y < x
  | _, _ => false

/-- JavaScript addition, propagating NaN. -/
def jsAdd (a b : Option Int) : Option Int :=
  match a, b with
  | some x, some y => some (x + y)
  | _, _ => none

/-- JavaScript subtraction, propagating NaN. -/
def jsSub (a b : Option Int) : Option Int :=
  match a, b with
  | some x, some y => some (x - y)
  | _, _ => none

/-- JavaScript stringification of a number that may be NaN. -/
def jsNumStr : Option Int → String
  | none => "NaN"
  | some (Int.ofNat m) => Nat.repr m
  | some (Int.negSucc m) => "-" ++ Nat.repr (m + 1)

/-- Buffer.prototype.slice index coercion: NaN becomes 0, negative indices
count from the end, and the result is clamped to [0, len]. -/
def jsToIndex (len : Nat) : Option Int → Nat
  | none => 0
  | some i => if i < 0 then len - min len i.natAbs else min i.toNat len

/-! ### Identifier generator and validator (src/utils/github.js) -/

/-- Model of originalFilename.split(dot).pop(): the last dot-separated
segment (the whole string when it has no dot). -/
def lastSegment (l : List Char) : List Char := (splitChar '.' l).getLastD []

/-- Extension resolution inside generateShortFilename: lowercase the declared
extension, strip one leading dot, fall back to the original filename's last
segment when empty or the generic placeholder bin, finally default to bin. -/
def resolvedExt (extension origFilename : List Char) : List Char :=
  let c0 := jsToLower extension
  let c1 := match c0 with
    | '.' :: rest => rest
    | l => l
  let c2 :=
    if c1 = [] || c1 = "bin".toList then
      let o := lastSegment origFilename
      if o ≠ [] && o ≠ origFilename then jsToLower o else c1
    else c1
  if c2 = [] then "bin".toList else c2

/-- Model of generateShortFilename(buffer, extension, originalFilename).
The md5 digest and the clock are external collaborators and are passed in:
`md5` stands for crypto.createHash(md5) over the buffer (16 raw digest
bytes), `now` for Date.now(). -/
def generateShortFilename (md5 : List Nat → List Nat) (now : Nat)
    (buffer : List Nat) (extension origFilename : List Char) : List Char :=
  let hash := (hexEncode (md5 buffer)).take 8
  let timestamp := sliceLast 4 (natToBase 36 now)
  let cleanExt := resolvedExt extension origFilename
  "J-".toList ++ hash ++ timestamp ++ '.' :: cleanExt

/-- The extension part of the validator regex: a dot followed by 1 to 10
alphanumeric characters, ending the string. -/
def extPartOk : List Char → Bool
  | [] => false
  | d :: ext => d == '.' && decide (1 ≤ ext.length) && decide (ext.length ≤ 10)
      && ext.all isAlnumCh

/-- Model of isValidFilename: the regex
^J-[a-f0-9]{8}[a-z0-9]{4}\.[a-zA-Z0-9]{1,10}$ with the i flag, so the
leading letter, the hex block and the base36 block are matched
case-insensitively. -/
def isValidFilenameL (l : List Char) : Bool :=
  match l with
  | c0 :: c1 :: rest =>
    (c0 == 'J' || c0 == 'j') && c1 == '-'
      && decide ((rest.take 8).length = 8) && (rest.take 8).all isHexICh
      && decide (((rest.drop 8).take 4).length = 4) && ((rest.drop 8).take 4).all isAlnumCh
      && extPartOk ((rest.drop 8).drop 4)
  | _ => false

/-- isValidFilename on the string carried by the HTTP layer. -/
def isValidFilename (s : String) : Bool := isValidFilenameL s.toList

/-- The extension block of the spec-claimed shape: a dot followed by 1 to
10 lowercase alphanumerics, ending the string. -/
def specExtPart : List Char → Bool
  | [] => false
  | d :: ext => d == '.' && decide (1 ≤ ext.length) && decide (ext.length ≤ 10)
      && ext.all isLowerAlnumCh

/-- Modelled from the spec: the claimed identifier shape
J-<8 lowercase hex><4 base-36 characters>.<1 to 10 alphanumerics,
lowercased>.  Written from the words of the spec for comparison with the
generator; the hex and base-36 blocks are lowercase here, unlike the
case-insensitive validator above. -/
def specIdentifierShape (l : List Char) : Bool :=
  match l with
  | c0 :: c1 :: rest =>
    c0 == 'J' && c1 == '-'
      && decide ((rest.take 8).length = 8)
      && (rest.take 8).all (fun c => isDigitCh c || (97 ≤ c.toNat && c.toNat ≤ 102))
      && decide (((rest.drop 8).take 4).length = 4)
      && ((rest.drop 8).take 4).all isLowerAlnumCh
      && specExtPart ((rest.drop 8).drop 4)
  | _ => false

/-! ### HTTP range-serving responder (src/server.js, GET /:filename) -/

/-- Observable parts of an HTTP response: status, the headers the handler
sets explicitly, the byte body, and the JSON error payload when the handler
answers with res.json. -/
structure HttpResponse where
  status : Nat
  contentType : Option String
  contentLength : Option String
  contentRange : Option String
  contentDisposition : Option String
  body : List Nat
  jsonError : Option String
deriving DecidableEq

/-- The streaming chunk size of the handler (1 MiB). -/
def chunkSizeC : Nat := 1048576

/-- The sendChunk loop of the handler for bodies above the streaming
threshold: emit data.slice(offset, min(offset + chunkSize, length)) and
advance offset by chunkSize until the end; the concatenation of the written
chunks is the observable body. -/
def sendChunks (data : List Nat) (offset : Nat) : List Nat :=
  if data.length ≤ offset then []
  else ((data.drop offset).take chunkSizeC) ++ sendChunks data (offset + chunkSizeC)
termination_by data.length - offset
decreasing_by
  simp [chunkSizeC]
  omega

/-- mimeType.startsWith(text/). -/
def startsWithText (mimeType : String) : Bool := "text/".toList.isPrefixOf mimeType.toList

/-- The extension drawn from the identifier at serve time, lowercased. -/
def extLower (filename : List Char) : List Char := jsToLower (extensionOf filename)

/-- The HTML-as-text test of the handler: extension html or htm. -/
def isHtmlName (filename : List Char) : Bool :=
  extLower filename == "html".toList || extLower filename == "htm".toList

/-- The force-as-text test: query text=true or plain=true. -/
def isForceText (qtext qplain : Option String) : Bool :=
  qtext == some "true" || qplain == some "true"

/-- JavaScript truthiness of an optional string header value: present and
nonempty. -/
def truthyOptChars : Option (List Char) → Bool
  | some (_ :: _) => true
  | _ => false

/-- A 200 response carrying the headers the handler sets for direct sends
and for the streaming path; the Content-Length header is the full data
length in both cases. -/
def mk200 (mimeType : String) (filename : List Char) (data body : List Nat) : HttpResponse :=
  { status := 200
    contentType := some mimeType
    contentLength := some (Nat.repr data.length)
    contentRange := none
    contentDisposition := some ("inline; filename=\"" ++ String.mk filename ++ "\"")
    body := body
    jsonError := none }

/-- start = parseInt(parts[0], 10). -/
def rangeStartVal (parts : List (List Char)) : Option Int :=
  jsParseInt (parts.getD 0 [])

/-- end = parts[1] ? parseInt(parts[1], 10) : data.length - 1; a missing and
an empty second field are both falsy. -/
def rangeEndVal (parts : List (List Char)) (len : Nat) : Option Int :=
  let p1 := parts.getD 1 []
  if p1.isEmpty then some ((len : Int) - 1) else jsParseInt p1

/-- The Range branch of the handler: strip bytes=, split on the dash, parse
start and end, answer 416 with Content-Range bytes */len when start or end
is at or past the length or start exceeds end, otherwise 206 with the byte
slice [start, end]. -/
def rangeResponse (rangeChars : List Char) (mimeType : String) (data : List Nat) : HttpResponse :=
  let stripped := removeFirstOcc ("bytes=".toList) rangeChars
  let parts := splitChar '-' stripped
  let startv := rangeStartVal parts
  let endv := rangeEndVal parts data.length
  if jsGe startv (data.length : Int) || jsGe endv (data.length : Int) || jsGt startv endv then
    { status := 416
      contentType := none
      contentLength := none
      contentRange := some ("bytes */" ++ Nat.repr data.length)
      contentDisposition := none
      body := []
      jsonError := none }
  else
    { status := 206
      contentType := some mimeType
      contentLength := some (jsNumStr (jsAdd (jsSub endv startv) (some 1)))
      contentRange := some ("bytes " ++ jsNumStr startv ++ "-" ++ jsNumStr endv ++ "/"
        ++ Nat.repr data.length)
      contentDisposition := none
      body := List.drop (jsToIndex data.length startv)
        (data.take (jsToIndex data.length (jsAdd endv (some 1))))
      jsonError := none }

/-- The serve phase of GET /:filename once the blob bytes are resolved:
content-type selection with the HTML-as-text override, the Range branch,
the direct-send branch for text, and the chunked-streaming branch for
bodies above 5 MiB.  `L` is the mime-types lookup table collaborator. -/
def serveResolved (L : List Char → Option String) (filename : List Char)
    (qtext qplain : Option String) (range : Option (List Char)) (data : List Nat) :
    HttpResponse :=
  let isHtmlFile := isHtmlName filename
  let forceText := isForceText qtext qplain
  let mimeType :=
    if isHtmlFile || forceText then "text/plain"
    else (L (extLower filename)).getD "application/octet-stream"
  if truthyOptChars range && !isHtmlFile && !forceText then
    rangeResponse (range.getD []) mimeType data
  else if isHtmlFile || forceText || startsWithText mimeType then
    mk200 mimeType filename data data
  else if 5 * 1048576 < data.length then
    mk200 mimeType filename data (sendChunks data 0)
  else
    mk200 mimeType filename data data

/-- The Range header bytes=<start>-<end> with a decimal start and an
optional decimal end, as named by the spec. -/
def rangeHeaderChars (start : Nat) (endOpt : Option Nat) : List Char :=
  "bytes=".toList ++ natToBase 10 start ++ '-' ::
    (match endOpt with
     | some e => natToBase 10 e
     | none => [])

/-! ### Blob store adapter over the GitHub contents API (src/utils/github.js)

A backend interaction is drawn from an oracle `Nat → GhOutcome`, one index
per issued request, and every issued request is recorded in a call log. -/

/-- The fields of a getContent response that the adapter reads.  The content
field carries the code points of the base64 text; absent fields are none,
and JavaScript treats an empty string as falsy. -/
structure GhMeta where
  size : Nat
  sha : String
  name : String
  content : Option (List Nat)
  downloadUrl : Option String
deriving DecidableEq

/-- Outcome of one backend request: a 2xx response with data, a thrown 404,
or any other thrown error with its message. -/
inductive GhOutcome where
  | found (meta : GhMeta)
  | notFound
  | backendError (msg : String)
deriving DecidableEq

/-- A backend request issued by the adapter, labelled by call site:
the metadata probe of getFileInfo and of the upload existence check, the
getContent of getFileFromGitHub, the raw download fetch, and the
createOrUpdateFileContents put. -/
inductive BackendCall where
  | metadataCall (path : String)
  | contentCall (path : String)
  | downloadCall (url : String)
  | putCall (path : String) (sha : Option String)
deriving DecidableEq

/-- Body-transfer calls, as opposed to metadata and put calls. -/
def isBodyCall : BackendCall → Bool
  | BackendCall.contentCall _ => true
  | BackendCall.downloadCall _ => true
  | _ => false

/-- Whether an outcome is a 2xx getContent response. -/
def isFoundOutcome : GhOutcome → Bool
  | GhOutcome.found _ => true
  | _ => false

/-- JavaScript error.message || fallback. -/
def jsOr (msg dflt : String) : String := if msg = "" then dflt else msg

/-- Truthiness of the content field: present and nonempty. -/
def truthyContent : Option (List Nat) → Bool
  | some (_ :: _) => true
  | _ => false

/-- Truthiness of the download_url field: present and nonempty. -/
def truthyUrl : Option String → Bool
  | some s => !(s == "")
  | none => false

/-- Result of getFileInfo: success with size, sha, download url and name,
or failure with a message. -/
inductive InfoRes where
  | ok (size : Nat) (sha : String) (url : Option String) (name : String)
  | err (msg : String)
deriving DecidableEq

/-- The success flag of a getFileInfo result object. -/
def InfoRes.success : InfoRes → Bool
  | InfoRes.ok .. => true
  | InfoRes.err _ => false

/-- The error field of a getFileInfo result object. -/
def InfoRes.errMsg : InfoRes → String
  | InfoRes.ok .. => ""
  | InfoRes.err m => m

/-- Result of getFileFromGitHub: success with the bytes, their length and
the sha, or failure with a message. -/
inductive GetRes where
  | ok (data : List Nat) (size : Nat) (sha : String)
  | err (msg : String)
deriving DecidableEq

/-- The success flag of a getFileFromGitHub result object. -/
def GetRes.success : GetRes → Bool
  | GetRes.ok .. => true
  | GetRes.err _ => false

/-- The error field of a getFileFromGitHub result object. -/
def GetRes.errMsg : GetRes → String
  | GetRes.ok .. => ""
  | GetRes.err m => m

/-- Result of uploadToGitHub: success with the generated identifier and the
size, or failure with a message. -/
inductive UpRes where
  | ok (filename : List Char) (size : Nat)
  | err (msg : String)
deriving DecidableEq

/-- The success flag of an uploadToGitHub result object. -/
def UpRes.success : UpRes → Bool
  | UpRes.ok .. => true
  | UpRes.err _ => false

/-- The error field of an uploadToGitHub result object. -/
def UpRes.errMsg : UpRes → String
  | UpRes.ok .. => ""
  | UpRes.err m => m

/-- Model of getFileInfo(filename): reject invalid identifiers before any
backend request, otherwise one getContent call whose thrown errors are
caught and turned into a failure result.  Returns the result, the next
oracle index and the log of issued calls. -/
def getFileInfoM (filename : String) (oracle : Nat → GhOutcome) (k : Nat) :
    InfoRes × Nat × List BackendCall :=
  if !(isValidFilename filename) then (InfoRes.err "Invalid filename format", k, [])
  else
    let path := "files/" ++ filename
    match oracle k with
    | GhOutcome.found m =>
      (InfoRes.ok m.size m.sha m.downloadUrl m.name, k + 1, [BackendCall.metadataCall path])
    | GhOutcome.notFound => (InfoRes.err "Not Found", k + 1, [BackendCall.metadataCall path])
    | GhOutcome.backendError msg =>
      (InfoRes.err (jsOr msg "Failed to get file info"), k + 1, [BackendCall.metadataCall path])

/-- Model of getFileFromGitHub(filename): reject invalid identifiers before
any backend request; one getContent call; require content or download_url;
above 1 MiB fetch the bytes through download_url, otherwise decode the
inline base64 content.  `download` models fetch on the download url:
ok with the raw bytes, or error with the statusText of a failed response
(also covering thrown fetch errors). -/
def getFileFromGitHubM (filename : String) (oracle : Nat → GhOutcome)
    (download : String → Except String (List Nat)) (k : Nat) :
    GetRes × Nat × List BackendCall :=
  if !(isValidFilename filename) then (GetRes.err "Invalid filename format", k, [])
  else
    let path := "files/" ++ filename
    match oracle k with
    | GhOutcome.notFound => (GetRes.err "Not Found", k + 1, [BackendCall.contentCall path])
    | GhOutcome.backendError msg =>
      (GetRes.err (jsOr msg "Download failed"), k + 1, [BackendCall.contentCall path])
    | GhOutcome.found m =>
      if !(truthyContent m.content) && !(truthyUrl m.downloadUrl) then
        (GetRes.err "File content not available", k + 1, [BackendCall.contentCall path])
      else if 1048576 < m.size then
        match m.downloadUrl with
        | none =>
          -- fetch(undefined) throws before any request is issued
          (GetRes.err "Failed to parse URL from undefined", k + 1, [BackendCall.contentCall path])
        | some url =>
          match download url with
          | Except.ok bytes =>
            (GetRes.ok bytes bytes.length m.sha, k + 1,
              [BackendCall.contentCall path, BackendCall.downloadCall url])
          | Except.error statusText =>
            (GetRes.err ("Download failed: " ++ statusText), k + 1,
              [BackendCall.contentCall path, BackendCall.downloadCall url])
      else
        match m.content with
        | some c =>
          let buffer := b64Decode c
          (GetRes.ok buffer buffer.length m.sha, k + 1, [BackendCall.contentCall path])
        | none =>
          -- Buffer.from(undefined, base64) throws a TypeError
          (GetRes.err "The first argument must be of type string", k + 1,
            [BackendCall.contentCall path])

/-- Model of uploadToGitHub(originalFilename, buffer, extension): reject an
empty buffer and a buffer above the 100 MiB API ceiling before any backend
request; then generate the identifier, probe the key for an existing sha
(any probe failure is swallowed and leaves the sha absent), and issue the
createOrUpdateFileContents put.  The base64 request payload itself is not
observable in the result and is not materialised here. -/
def uploadToGitHubM (md5 : List Nat → List Nat) (now : Nat)
    (originalFilename : List Char) (buffer : List Nat) (extension : List Char)
    (oracle : Nat → GhOutcome) (k : Nat) : UpRes × Nat × List BackendCall :=
  if buffer.length = 0 then (UpRes.err "Invalid or empty buffer", k, [])
  else if 100 * 1024 * 1024 < buffer.length then
    (UpRes.err "File too large for GitHub API (max 100MB)", k, [])
  else
    let filename := generateShortFilename md5 now buffer extension originalFilename
    let path := "files/" ++ String.mk filename
    let sha : Option String :=
      match oracle k with
      | GhOutcome.found m => some m.sha
      | _ => none
    match oracle (k + 1) with
    | GhOutcome.found _ =>
      (UpRes.ok filename buffer.length, k + 2,
        [BackendCall.metadataCall path, BackendCall.putCall path sha])
    | GhOutcome.notFound =>
      (UpRes.err "Not Found", k + 2,
        [BackendCall.metadataCall path, BackendCall.putCall path sha])
    | GhOutcome.backendError msg =>
      (UpRes.err (jsOr msg "Upload failed"), k + 2,
        [BackendCall.metadataCall path, BackendCall.putCall path sha])

/-! ### Retry wrappers and the GET handler (src/server.js) -/

/-- The attempt loop of checkFileExists: call getFileInfo up to `fuel`
times, returning the first success; getFileInfo never throws, so any
unsuccessful result (including a definitive 404) simply triggers the next
attempt. -/
def checkFileExistsAux (filename : String) (oracle : Nat → GhOutcome) :
    Nat → Nat → Option InfoRes × Nat × List BackendCall
  | 0, k => (none, k, [])
  | fuel + 1, k =>
    match getFileInfoM filename oracle k with
    | (r, k1, l1) =>
      if r.success then (some r, k1, l1)
      else
        match checkFileExistsAux filename oracle fuel k1 with
        | (r2, k2, l2) => (r2, k2, l1 ++ l2)

/-- checkFileExists(filename) with its default of 3 attempts. -/
def checkFileExistsM (filename : String) (oracle : Nat → GhOutcome) (k : Nat) :
    Option InfoRes × Nat × List BackendCall :=
  checkFileExistsAux filename oracle 3 k

/-- The attempt loop of getFileWithRetry: call getFileFromGitHub up to
`fuel` times, returning the first success (a successful result always
carries a truthy data buffer). -/
def getFileWithRetryAux (filename : String) (oracle : Nat → GhOutcome)
    (download : String → Except String (List Nat)) :
    Nat → Nat → Option GetRes × Nat × List BackendCall
  | 0, k => (none, k, [])
  | fuel + 1, k =>
    match getFileFromGitHubM filename oracle download k with
    | (r, k1, l1) =>
      if r.success then (some r, k1, l1)
      else
        match getFileWithRetryAux filename oracle download fuel k1 with
        | (r2, k2, l2) => (r2, k2, l1 ++ l2)

/-- getFileWithRetry(filename) with its default of 3 attempts. -/
def getFileWithRetryM (filename : String) (oracle : Nat → GhOutcome)
    (download : String → Except String (List Nat)) (k : Nat) :
    Option GetRes × Nat × List BackendCall :=
  getFileWithRetryAux filename oracle download 3 k

/-- The permissive inline validation of the GET route: nonempty, and free of
dot-dot, slash and backslash. -/
def basicNameOk (filename : String) : Bool :=
  !(filename == "") && !(containsSubstr ("..".toList) filename.toList)
    && !(filename.toList.contains '/') && !(filename.toList.contains '\\')

/-- A res.status(404).json(error) response. -/
def resp404 (msg : String) : HttpResponse :=
  { status := 404
    contentType := none
    contentLength := none
    contentRange := none
    contentDisposition := none
    body := []
    jsonError := some msg }

/-- Model of the GET /:filename handler: inline name validation, then the
existence check with retry, then the body fetch with retry, then the serve
phase; each failing stage answers 404 without reaching the next stage. -/
def handleGetM (L : List Char → Option String) (filename : String)
    (qtext qplain : Option String) (range : Option (List Char))
    (oracle : Nat → GhOutcome) (download : String → Except String (List Nat)) :
    HttpResponse × List BackendCall :=
  if !(basicNameOk filename) then (resp404 "Invalid filename", [])
  else
    match checkFileExistsM filename oracle 0 with
    | (none, _, l1) => (resp404 "File not found", l1)
    | (some _, k1, l1) =>
      match getFileWithRetryM filename oracle download k1 with
      | (some (GetRes.ok d _ _), _, l2) =>
        (serveResolved L filename.toList qtext qplain range d, l1 ++ l2)
      | (some _, _, l2) => (resp404 "File not found or corrupted", l1 ++ l2)
      | (none, _, l2) => (resp404 "File not found or corrupted", l1 ++ l2)

/-! ### Helper lemmas: digit rendering and parsing -/

theorem baseDigit_toNat (d : Nat) (hd : d < 36) :
    (baseDigit d).toNat = if d < 10 then 48 + d else 87 + d := by
  interval_cases d <;> decide

theorem baseDigit_isDigit (d : Nat) (hd : d < 10) : isDigitCh (baseDigit d) = true := by
  interval_cases d <;> decide

theorem baseDigit_isLowerAlnum (d : Nat) (hd : d < 36) :
    isLowerAlnumCh (baseDigit d) = true := by
  interval_cases d <;> decide

theorem natToBaseAux_eq (b : Nat) (hb : 2 ≤ b) :
    ∀ n f, n < f → natToBaseAux b f n = natToBase b n := by
  intro n
  induction n using Nat.strong_induction_on with
  | _ n ih =>
    intro f hf
    match f, hf with
    | f' + 1, _ =>
      show natToBaseAux b (f' + 1) n = natToBaseAux b (n + 1) n
      simp only [natToBaseAux]
      by_cases hn : n < b
      · simp [hn]
      · simp only [hn, if_false]
        have hdiv : n / b < n := Nat.div_lt_self (by omega) (by omega)
        have h1 : natToBaseAux b f' (n / b) = natToBase b (n / b) :=
          ih (n / b) hdiv f' (by omega)
        have h2 : natToBaseAux b n (n / b) = natToBase b (n / b) :=
          ih (n / b) hdiv n (by omega)
        rw [h1, h2]

theorem natToBase_unfold (b : Nat) (hb : 2 ≤ b) (n : Nat) :
    natToBase b n =
      if n < b then [baseDigit n] else natToBase b (n / b) ++ [baseDigit (n % b)] := by
  show natToBaseAux b (n + 1) n = _
  simp only [natToBaseAux]
  by_cases hn : n < b
  · simp [hn]
  · simp only [hn, if_false]
    rw [natToBaseAux_eq b hb (n / b) n (Nat.div_lt_self (by omega) (by omega))]

theorem natToBase_ne_nil (b : Nat) (hb : 2 ≤ b) (n : Nat) : natToBase b n ≠ [] := by
  rw [natToBase_unfold b hb]
  split <;> simp

theorem mem_natToBase (b : Nat) (hb : 2 ≤ b) :
    ∀ n, ∀ c ∈ natToBase b n, ∃ d, d < b ∧ c = baseDigit d := by
  intro n
  induction n using Nat.strong_induction_on with
  | _ n ih =>
    intro c hc
    rw [natToBase_unfold b hb] at hc
    by_cases hn : n < b
    · rw [if_pos hn] at hc
      simp at hc
      exact ⟨n, hn, hc⟩
    · rw [if_neg hn] at hc
      rcases List.mem_append.mp hc with hc | hc
      · exact ih (n / b) (Nat.div_lt_self (by omega) (by omega)) c hc
      · simp at hc
        exact ⟨n % b, Nat.mod_lt _ (by omega), hc⟩

theorem natToBase10_digits (n : Nat) : ∀ c ∈ natToBase 10 n, isDigitCh c = true := by
  intro c hc
  obtain ⟨d, hd, rfl⟩ := mem_natToBase 10 (by omega) n c hc
  exact baseDigit_isDigit d hd

theorem natToBase36_lower (n : Nat) : ∀ c ∈ natToBase 36 n, isLowerAlnumCh c = true := by
  intro c hc
  obtain ⟨d, hd, rfl⟩ := mem_natToBase 36 (by omega) n c hc
  exact baseDigit_isLowerAlnum d hd

theorem natToBase_length_ge (b : Nat) (hb : 2 ≤ b) :
    ∀ k n, b ^ k ≤ n → k + 1 ≤ (natToBase b n).length := by
  intro k
  induction k with
  | zero =>
    intro n _
    rw [natToBase_unfold b hb]
    split <;> simp
  | succ k ih =>
    intro n hn
    have hbn : b ≤ n := le_trans (Nat.le_self_pow (by omega) b) hn
    rw [natToBase_unfold b hb, if_neg (by omega)]
    have hdiv : b ^ k ≤ n / b := by
      rw [Nat.le_div_iff_mul_le (by omega)]
      calc b ^ k * b = b ^ (k + 1) := (pow_succ b k).symm
        _ ≤ n := hn
    have := ih (n / b) hdiv
    simp [List.length_append]
    omega

theorem parseDigitsAcc_append (xs ys : List Char) (a : Nat)
    (h : ∀ c ∈ xs, isDigitCh c = true) :
    parseDigitsAcc (xs ++ ys) a = parseDigitsAcc ys (parseDigitsAcc xs a) := by
  induction xs generalizing a with
  | nil => simp [parseDigitsAcc]
  | cons c cs ih =>
    have hc := h c (by simp)
    simp only [List.cons_append, parseDigitsAcc, hc, if_true]
    exact ih _ (fun x hx => h x (by simp [hx]))

theorem parseDigitsAcc_natToBase10 :
    ∀ n a, parseDigitsAcc (natToBase 10 n) a = a * 10 ^ (natToBase 10 n).length + n := by
  intro n
  induction n using Nat.strong_induction_on with
  | _ n ih =>
    intro a
    rw [natToBase_unfold 10 (by omega)]
    by_cases hn : n < 10
    · rw [if_pos hn]
      have hd := baseDigit_isDigit n hn
      have ht := baseDigit_toNat n (by omega)
      rw [if_pos hn] at ht
      simp [parseDigitsAcc, hd, ht]
      omega
    · rw [if_neg hn]
      rw [parseDigitsAcc_append _ _ _ (natToBase10_digits (n / 10))]
      rw [ih (n / 10) (Nat.div_lt_self (by omega) (by omega))]
      have hd := baseDigit_isDigit (n % 10) (Nat.mod_lt _ (by omega))
      have ht := baseDigit_toNat (n % 10) (by omega)
      rw [if_pos (Nat.mod_lt _ (by omega))] at ht
      simp only [parseDigitsAcc, hd, if_true, ht, List.length_append, List.length_cons,
        List.length_nil, pow_succ]
      have hmod := Nat.div_add_mod n 10
      generalize (10 : Nat) ^ (natToBase 10 (n / 10)).length = X
      have hassoc : a * (X * 10) = a * X * 10 := by ring
      omega

theorem isDigitCh_char_facts (c : Char) (h : isDigitCh c = true) :
    isWsCh c = false ∧ c ≠ '+' ∧ c ≠ '-' := by
  simp only [isDigitCh, Bool.and_eq_true, decide_eq_true_eq] at h
  refine ⟨?_, ?_, ?_⟩
  · simp only [isWsCh]
    simp only [Bool.or_eq_false_iff, decide_eq_false_iff_not]
    omega
  · intro hc; rw [hc] at h; simp at h
  · intro hc; rw [hc] at h; simp at h

theorem jsParseInt_natToBase10 (n : Nat) :
    jsParseInt (natToBase 10 n) = some ((n : Nat) : Int) := by
  obtain ⟨c, cs, hcons⟩ : ∃ c cs, natToBase 10 n = c :: cs := by
    cases h : natToBase 10 n with
    | nil => exact absurd h (natToBase_ne_nil 10 (by omega) n)
    | cons c cs => exact ⟨c, cs, rfl⟩
  have hc : isDigitCh c = true := natToBase10_digits n c (by rw [hcons]; simp)
  obtain ⟨hws, hplus, hminus⟩ := isDigitCh_char_facts c hc
  have hskip : skipWs (c :: cs) = c :: cs := by simp [skipWs, hws]
  have hacc : parseDigitsAcc (natToBase 10 n) 0 = n := by
    rw [parseDigitsAcc_natToBase10]; omega
  rw [hcons] at hacc
  simp only [parseDigitsAcc, hc, if_true] at hacc
  rw [hcons, jsParseInt, hskip]
  show (if c = '+' then Option.map Int.ofNat (parseDigitsOpt cs)
    else if c = '-' then Option.map (fun n => -Int.ofNat n) (parseDigitsOpt cs)
    else Option.map Int.ofNat (parseDigitsOpt (c :: cs))) = some (Int.ofNat n)
  rw [if_neg hplus, if_neg hminus]
  simp only [parseDigitsOpt, hc, if_true]
  rw [show 10 * 0 + (c.toNat - 48) = c.toNat - 48 by omega] at hacc
  rw [hacc]
  rfl

/-! ### Helper lemmas: split, replace, chunked send -/

theorem splitChar_not_mem (sep : Char) (l : List Char) (h : sep ∉ l) :
    splitChar sep l = [l] := by
  induction l with
  | nil => rfl
  | cons c cs ih =>
    have hc : ¬(c = sep) := fun hh => h (by simp [hh])
    have hcs := ih (fun hh => h (by simp [hh]))
    simp [splitChar, hc, hcs]

theorem splitChar_append (sep : Char) (xs ys : List Char) (h : sep ∉ xs) :
    splitChar sep (xs ++ sep :: ys) = xs :: splitChar sep ys := by
  induction xs with
  | nil => simp [splitChar]
  | cons c cs ih =>
    have hc : ¬(c = sep) := fun hh => h (by simp [hh])
    have hcs := ih (fun hh => h (by simp [hh]))
    cases hsp : splitChar sep ys with
    | nil => rw [hsp] at hcs; simp [splitChar, hc, hcs]
    | cons t ts => rw [hsp] at hcs; simp [splitChar, hc, hcs]

theorem removeFirstOcc_append (pat rest : List Char) (hp : pat ≠ []) :
    removeFirstOcc pat (pat ++ rest) = rest := by
  match pat, hp with
  | p :: ps, _ =>
    show removeFirstOcc (p :: ps) (p :: (ps ++ rest)) = rest
    rw [removeFirstOcc]
    rw [if_pos (List.isPrefixOf_iff_prefix.mpr ⟨rest, by simp⟩)]
    show (ps ++ rest).drop ps.length = rest
    exact List.drop_left ps rest

theorem sendChunks_eq (data : List Nat) (offset : Nat) :
    sendChunks data offset = data.drop offset := by
  rw [sendChunks]
  by_cases h : data.length ≤ offset
  · rw [if_pos h, List.drop_eq_nil_of_le h]
  · rw [if_neg h, sendChunks_eq data (offset + chunkSizeC)]
    rw [← List.drop_drop]
    exact List.take_append_drop chunkSizeC (data.drop offset)
termination_by data.length - offset
decreasing_by
  simp [chunkSizeC]
  omega

/-! ### Helper lemmas: base64 round trip -/

theorem b64DecEnc (v : Nat) (hv : v < 64) : b64DecVal (b64EncVal v) = v := by
  unfold b64EncVal b64DecVal
  split_ifs <;> omega

theorem b64EncVal_ne_pad (v : Nat) (hv : v < 64) : b64EncVal v ≠ 61 := by
  unfold b64EncVal
  split_ifs <;> omega

theorem b64_roundtrip : ∀ B : List Nat, (∀ x ∈ B, x < 256) → b64Decode (b64Encode B) = B
  | [], _ => rfl
  | [a], h => by
    have ha : a < 256 := h a (by simp)
    have h1 : a / 4 < 64 := by omega
    have h2 : a % 4 * 16 < 64 := by omega
    simp only [b64Encode, b64Decode, if_pos rfl, b64DecEnc _ h1, b64DecEnc _ h2]
    simp
    omega
  | [a, b], h => by
    have ha : a < 256 := h a (by simp)
    have hb : b < 256 := h b (by simp)
    have h1 : a / 4 < 64 := by omega
    have h2 : a % 4 * 16 + b / 16 < 64 := by omega
    have h3 : b % 16 * 4 < 64 := by omega
    simp only [b64Encode, b64Decode, if_neg (b64EncVal_ne_pad _ h3), if_pos rfl,
      b64DecEnc _ h1, b64DecEnc _ h2, b64DecEnc _ h3]
    simp
    constructor <;> omega
  | a :: b :: c :: d :: rest, h => by
    have ha : a < 256 := h a (by simp)
    have hb : b < 256 := h b (by simp)
    have hc : c < 256 := h c (by simp)
    have h1 : a / 4 < 64 := by omega
    have h2 : a % 4 * 16 + b / 16 < 64 := by omega
    have h3 : b % 16 * 4 + c / 64 < 64 := by omega
    have h4 : c % 64 < 64 := by omega
    have ih := b64_roundtrip (d :: rest) (fun x hx => h x (by simp at hx ⊢; tauto))
    simp only [b64Encode, b64Decode, if_neg (b64EncVal_ne_pad _ h3),
      if_neg (b64EncVal_ne_pad _ h4), b64DecEnc _ h1, b64DecEnc _ h2, b64DecEnc _ h3,
      b64DecEnc _ h4, ih]
    have e1 : a / 4 * 4 + (a % 4 * 16 + b / 16) / 16 = a := by omega
    have e2 : (a % 4 * 16 + b / 16) % 16 * 16 + (b % 16 * 4 + c / 64) / 4 = b := by omega
    have e3 : (b % 16 * 4 + c / 64) % 4 * 64 + c % 64 = c := by omega
    rw [e1, e2, e3]
  | [a, b, c], h => by
    have ha : a < 256 := h a (by simp)
    have hb : b < 256 := h b (by simp)
    have hc : c < 256 := h c (by simp)
    have h1 : a / 4 < 64 := by omega
    have h2 : a % 4 * 16 + b / 16 < 64 := by omega
    have h3 : b % 16 * 4 + c / 64 < 64 := by omega
    have h4 : c % 64 < 64 := by omega
    simp only [b64Encode, b64Decode, if_neg (b64EncVal_ne_pad _ h3),
      if_neg (b64EncVal_ne_pad _ h4), b64DecEnc _ h1, b64DecEnc _ h2, b64DecEnc _ h3,
      b64DecEnc _ h4]
    have e1 : a / 4 * 4 + (a % 4 * 16 + b / 16) / 16 = a := by omega
    have e2 : (a % 4 * 16 + b / 16) % 16 * 16 + (b % 16 * 4 + c / 64) / 4 = b := by omega
    have e3 : (b % 16 * 4 + c / 64) % 4 * 64 + c % 64 = c := by omega
    rw [e1, e2, e3]

/-! ### Helper lemmas: validator decomposition and traversal characters -/

theorem extPartOk_decomp (m : List Char) (h : extPartOk m = true) :
    ∃ ext, m = '.' :: ext ∧ 1 ≤ ext.length ∧ ext.length ≤ 10
      ∧ ∀ c ∈ ext, isAlnumCh c = true := by
  cases m with
  | nil => simp [extPartOk] at h
  | cons d ext =>
    simp only [extPartOk, Bool.and_eq_true, beq_iff_eq, decide_eq_true_eq,
      List.all_eq_true] at h
    exact ⟨ext, by rw [h.1.1.1], h.1.1.2, h.1.2, h.2⟩

theorem isValidFilenameL_decomp (l : List Char) (h : isValidFilenameL l = true) :
    ∃ c0 h8 b4 ext, l = c0 :: '-' :: (h8 ++ (b4 ++ '.' :: ext))
      ∧ (c0 = 'J' ∨ c0 = 'j')
      ∧ (∀ c ∈ h8, isHexICh c = true)
      ∧ (∀ c ∈ b4, isAlnumCh c = true)
      ∧ (∀ c ∈ ext, isAlnumCh c = true) := by
  match l with
  | [] => simp [isValidFilenameL] at h
  | [c0] => simp [isValidFilenameL] at h
  | c0 :: c1 :: rest =>
    simp only [isValidFilenameL, Bool.and_eq_true, beq_iff_eq, Bool.or_eq_true,
      decide_eq_true_eq, List.all_eq_true] at h
    obtain ⟨⟨⟨⟨⟨⟨hj, hdash⟩, _⟩, hhex⟩, _⟩, halnum⟩, hext⟩ := h
    obtain ⟨ext, hdd, _, _, hextc⟩ := extPartOk_decomp _ hext
    refine ⟨c0, rest.take 8, (rest.drop 8).take 4, ext, ?_, hj, hhex, halnum, hextc⟩
    rw [hdash]
    have : rest = rest.take 8 ++ ((rest.drop 8).take 4 ++ '.' :: ext) := by
      conv_lhs => rw [← List.take_append_drop 8 rest]
      congr 1
      conv_lhs => rw [← List.take_append_drop 4 (rest.drop 8)]
      rw [hdd]
    rw [← this]

theorem count_dot_ge_two_of_substr (l : List Char)
    (h : containsSubstr ("..".toList) l = true) : 2 ≤ l.count '.' := by
  induction l with
  | nil => simp [containsSubstr] at h
  | cons c cs ih =>
    rw [containsSubstr, Bool.or_eq_true] at h
    rcases h with h | h
    · rw [show ("..".toList) = ['.', '.'] from rfl] at h
      rw [List.isPrefixOf_iff_prefix] at h
      obtain ⟨t, ht⟩ := h
      cases cs with
      | nil => simp at ht
      | cons d ds =>
        have hc : c = '.' := by
          have := congrArg (fun x => x.headI) ht
          simpa using this.symm
        have hd : d = '.' := by
          have := congrArg (fun x => x.tail.headI) ht
          simpa using this.symm
        subst hc; subst hd
        simp [List.count_cons]
    · have := ih h
      rw [List.count_cons]
      omega

/-! ### C1: validator safety and fail-fast rejection -/

/-- C1: no string accepted by isValidFilename contains a slash, a backslash
or a dot-dot sequence, so the storage key files/<identifier> cannot escape
the files/ namespace; and every string failing the validator is rejected by
getFileInfo and getFileFromGitHub with an error result before any backend
request is issued (their call logs stay empty). -/
theorem c1_validator_traversal_safety :
    (∀ s : String, isValidFilename s = true →
      '/' ∉ s.toList ∧ '\\' ∉ s.toList
        ∧ containsSubstr ("..".toList) s.toList = false)
    ∧ (∀ (f : String) (oracle : Nat → GhOutcome) (k : Nat), isValidFilename f = false →
        (getFileInfoM f oracle k).2.2 = [] ∧ (getFileInfoM f oracle k).1.success = false)
    ∧ (∀ (f : String) (oracle : Nat → GhOutcome)
        (download : String → Except String (List Nat)) (k : Nat),
        isValidFilename f = false →
        (getFileFromGitHubM f oracle download k).2.2 = []
          ∧ (getFileFromGitHubM f oracle download k).1.success = false) := by
  refine ⟨?_, ?_, ?_⟩
  · intro s hs
    obtain ⟨c0, h8, b4, ext, hl, hj, hh, hb, he⟩ := isValidFilenameL_decomp _ hs
    refine ⟨?_, ?_, ?_⟩
    · intro hmem
      rw [hl] at hmem
      simp only [List.mem_cons, List.mem_append] at hmem
      rcases hj with rfl | rfl <;>
        rcases hmem with h | h | h | h | h <;>
          first
          | exact absurd (hh _ h) (by decide)
          | exact absurd (hb _ h) (by decide)
          | exact absurd (he _ h) (by decide)
          | (simp at h; done)
          | (simp at h; exact absurd (he _ h) (by decide))
    · intro hmem
      rw [hl] at hmem
      simp only [List.mem_cons, List.mem_append] at hmem
      rcases hj with rfl | rfl <;>
        rcases hmem with h | h | h | h | h <;>
          first
          | exact absurd (hh _ h) (by decide)
          | exact absurd (hb _ h) (by decide)
          | exact absurd (he _ h) (by decide)
          | (simp at h; done)
          | (simp at h; exact absurd (he _ h) (by decide))
    · by_contra hcc
      rw [Bool.not_eq_false] at hcc
      have h2 := count_dot_ge_two_of_substr _ hcc
      have hz8 : h8.count '.' = 0 :=
        List.count_eq_zero.mpr (fun hm => absurd (hh _ hm) (by decide))
      have hz4 : b4.count '.' = 0 :=
        List.count_eq_zero.mpr (fun hm => absurd (hb _ hm) (by decide))
      have hze : ext.count '.' = 0 :=
        List.count_eq_zero.mpr (fun hm => absurd (he _ hm) (by decide))
      rw [hl] at h2
      rcases hj with rfl | rfl <;>
        simp [List.count_cons, List.count_append, hz8, hz4, hze] at h2
  · intro f oracle k hf
    simp [getFileInfoM, hf, InfoRes.success]
  · intro f oracle download k hf
    simp [getFileFromGitHubM, hf, GetRes.success]

/-- Witness for C1 at concrete inputs: a valid identifier is traversal-free,
and an invalid name is rejected by both adapter consumers with no backend
call. -/
theorem c1_validator_traversal_safety_witness :
    '/' ∉ ("J-00000000aaaa.png".toList)
      ∧ (getFileInfoM "../x" (fun _ => GhOutcome.notFound) 0).2.2 = []
      ∧ (getFileFromGitHubM "../x" (fun _ => GhOutcome.notFound)
          (fun _ => Except.error "boom") 0).2.2 = [] := by
  refine ⟨?_, ?_, ?_⟩
  · exact (c1_validator_traversal_safety.1 "J-00000000aaaa.png" (by decide)).1
  · exact (c1_validator_traversal_safety.2.1 "../x" (fun _ => GhOutcome.notFound) 0
      (by decide)).1
  · exact (c1_validator_traversal_safety.2.2 "../x" (fun _ => GhOutcome.notFound)
      (fun _ => Except.error "boom") 0 (by decide)).1

/-! ### C9: the adapter functions always return a result object -/

/-- C9: uploadToGitHub, getFileFromGitHub and getFileInfo never propagate an
exception: for every input and every backend outcome each returns a result
object that is either a success, or a failure carrying a nonempty error
string. -/
theorem c9_adapters_never_throw :
    (∀ (md5 : List Nat → List Nat) (now : Nat) (originalFilename : List Char)
        (buffer : List Nat) (extension : List Char) (oracle : Nat → GhOutcome) (k : Nat),
        (uploadToGitHubM md5 now originalFilename buffer extension oracle k).1.success = true
          ∨ ((uploadToGitHubM md5 now originalFilename buffer extension oracle k).1.success
                = false
              ∧ (uploadToGitHubM md5 now originalFilename buffer extension oracle k).1.errMsg
                ≠ ""))
    ∧ (∀ (f : String) (oracle : Nat → GhOutcome)
        (download : String → Except String (List Nat)) (k : Nat),
        (getFileFromGitHubM f oracle download k).1.success = true
          ∨ ((getFileFromGitHubM f oracle download k).1.success = false
              ∧ (getFileFromGitHubM f oracle download k).1.errMsg ≠ ""))
    ∧ (∀ (f : String) (oracle : Nat → GhOutcome) (k : Nat),
        (getFileInfoM f oracle k).1.success = true
          ∨ ((getFileInfoM f oracle k).1.success = false
              ∧ (getFileInfoM f oracle k).1.errMsg ≠ "")) := by
  have hjsOr : ∀ (msg dflt : String), dflt ≠ "" → jsOr msg dflt ≠ "" := by
    intro msg dflt hd
    unfold jsOr
    split
    · exact hd
    · assumption
  refine ⟨?_, ?_, ?_⟩
  · intro md5 now originalFilename buffer extension oracle k
    unfold uploadToGitHubM
    split
    · right; simp [UpRes.success, UpRes.errMsg]
    · split
      · right; simp [UpRes.success, UpRes.errMsg]
      · cases oracle (k + 1) with
        | found m => left; simp [UpRes.success]
        | notFound => right; simp [UpRes.success, UpRes.errMsg]
        | backendError msg =>
          right
          refine ⟨by simp [UpRes.success], ?_⟩
          simp only [UpRes.errMsg]
          exact hjsOr msg "Upload failed" (by decide)
  · intro f oracle download k
    unfold getFileFromGitHubM
    split
    · right; simp [GetRes.success, GetRes.errMsg]
    · cases oracle k with
      | notFound => right; simp [GetRes.success, GetRes.errMsg]
      | backendError msg =>
        right
        refine ⟨by simp [GetRes.success], ?_⟩
        simp only [GetRes.errMsg]
        exact hjsOr msg "Download failed" (by decide)
      | found m =>
        simp only
        split
        · right; simp [GetRes.success, GetRes.errMsg]
        · split
          · cases hurl : m.downloadUrl with
            | none => right; simp [hurl, GetRes.success, GetRes.errMsg]
            | some url =>
              cases hdl : download url with
              | ok bytes => left; simp [hurl, hdl, GetRes.success]
              | error statusText =>
                right
                refine ⟨by simp [hurl, hdl, GetRes.success], ?_⟩
                simp only [hurl, hdl, GetRes.errMsg]
                intro hcontra
                have hlen := congrArg String.length hcontra
                rw [String.length_append] at hlen
                have h17 : ("Download failed: ").length = 17 := rfl
                simp at hlen
                omega
          · cases hct : m.content with
            | some c => left; simp [hct, GetRes.success]
            | none => right; simp [hct, GetRes.success, GetRes.errMsg]
  · intro f oracle k
    unfold getFileInfoM
    split
    · right; simp [InfoRes.success, InfoRes.errMsg]
    · cases oracle k with
      | found m => left; simp [InfoRes.success]
      | notFound => right; simp [InfoRes.success, InfoRes.errMsg]
      | backendError msg =>
        right
        refine ⟨by simp [InfoRes.success], ?_⟩
        simp only [InfoRes.errMsg]
        exact hjsOr msg "Failed to get file info" (by decide)

/-! ### C6: the 100 MiB upload ceiling is checked before any backend I/O -/

/-- C6: for every upload whose buffer exceeds the 100 MiB backend ceiling,
uploadToGitHub fails with the too-large error before any backend call is
made: the call log is empty and the oracle cursor is untouched. -/
theorem c6_upload_size_gate (md5 : List Nat → List Nat) (now : Nat)
    (originalFilename : List Char) (buffer : List Nat) (extension : List Char)
    (oracle : Nat → GhOutcome) (k : Nat)
    (hbig : 100 * 1024 * 1024 < buffer.length) :
    (uploadToGitHubM md5 now originalFilename buffer extension oracle k).1
        = UpRes.err "File too large for GitHub API (max 100MB)"
      ∧ (uploadToGitHubM md5 now originalFilename buffer extension oracle k).2.2 = []
      ∧ (uploadToGitHubM md5 now originalFilename buffer extension oracle k).2.1 = k := by
  unfold uploadToGitHubM
  rw [if_neg (by omega), if_pos hbig]
  exact ⟨rfl, rfl, rfl⟩

/-- Witness for C6: a 100 MiB + 1 byte buffer is rejected with the
too-large error, no backend call and an untouched cursor. -/
theorem c6_upload_size_gate_witness :
    (uploadToGitHubM (fun _ => []) 0 [] (List.replicate 104857601 0) []
        (fun _ => GhOutcome.notFound) 0).2.2 = []
      ∧ (uploadToGitHubM (fun _ => []) 0 [] (List.replicate 104857601 0) []
          (fun _ => GhOutcome.notFound) 0).1
        = UpRes.err "File too large for GitHub API (max 100MB)" := by
  have h := c6_upload_size_gate (fun _ => []) 0 [] (List.replicate 104857601 0) []
    (fun _ => GhOutcome.notFound) 0 (by rw [List.length_replicate]; norm_num)
  exact ⟨h.2.1, h.1⟩

/-! ### C3: the shape of generated identifiers -/

theorem hexEncode_length (bs : List Nat) : (hexEncode bs).length = 2 * bs.length := by
  induction bs with
  | nil => rfl
  | cons b bs ih =>
    simp only [hexEncode, List.length_cons, ih]
    omega

theorem baseDigit_hexLower (d : Nat) (hd : d < 16) :
    (isDigitCh (baseDigit d) || (97 ≤ (baseDigit d).toNat && (baseDigit d).toNat ≤ 102))
      = true := by
  interval_cases d <;> decide

theorem hexEncode_chars (bs : List Nat) (hb : ∀ b ∈ bs, b < 256) :
    ∀ c ∈ hexEncode bs, (isDigitCh c || (97 ≤ c.toNat && c.toNat ≤ 102)) = true := by
  induction bs with
  | nil => simp [hexEncode]
  | cons b bs ih =>
    intro c hc
    have hb0 : b < 256 := hb b (by simp)
    simp only [hexEncode, List.mem_cons] at hc
    rcases hc with rfl | rfl | hc
    · exact baseDigit_hexLower _ (by omega)
    · exact baseDigit_hexLower _ (by omega)
    · exact ih (fun x hx => hb x (by simp [hx])) c hc

/-- C3 counterexample: the claim asserts the fixed shape for every declared
extension, but generateShortFilename copies the extension unvalidated; the
declared extension !!! yields J-<hash><ts>.!!! whose extension block is not
alphanumeric, so the generated string does not match the claimed shape. -/
theorem c3_shape_counterexample :
    specIdentifierShape
      (generateShortFilename (fun _ => List.replicate 16 171) 1700000000000
        [1] ("!!!".toList) ("x".toList)) = false := by
  decide

/-- C3 amended: for every buffer, declared extension and original filename,
provided the resolved extension (declared extension lowercased with one
leading dot stripped, else the filename fallback, else bin) is 1 to 10
lowercase alphanumerics, the generated identifier has the claimed fixed
shape: J-, exactly 8 lowercase hex characters of the content digest,
exactly 4 base-36 characters of the timestamp, a dot and the extension.
The digest hypotheses state the md5 collaborator contract (16 bytes), and
the clock hypothesis holds for every time at or after 46656 milliseconds
past the epoch.  For other declared extensions the extension block is
copied unvalidated and the shape can fail, as the counterexample shows. -/
theorem c3_identifier_shape_amended (md5 : List Nat → List Nat) (now : Nat)
    (buffer : List Nat) (extension origFilename : List Char)
    (hdig : (md5 buffer).length = 16)
    (hbytes : ∀ b ∈ md5 buffer, b < 256)
    (hnow : 36 ^ 3 ≤ now)
    (hext1 : 1 ≤ (resolvedExt extension origFilename).length)
    (hext2 : (resolvedExt extension origFilename).length ≤ 10)
    (hextc : ∀ c ∈ resolvedExt extension origFilename, isLowerAlnumCh c = true) :
    specIdentifierShape (generateShortFilename md5 now buffer extension origFilename)
      = true := by
  have hhlen : ((hexEncode (md5 buffer)).take 8).length = 8 := by
    rw [List.length_take, hexEncode_length, hdig]
    norm_num
  have htlen : (sliceLast 4 (natToBase 36 now)).length = 4 := by
    have hge : 3 + 1 ≤ (natToBase 36 now).length := natToBase_length_ge 36 (by omega) 3 now hnow
    unfold sliceLast
    rw [List.length_drop]
    omega
  have hhc : ∀ c ∈ (hexEncode (md5 buffer)).take 8,
      (isDigitCh c || (97 ≤ c.toNat && c.toNat ≤ 102)) = true :=
    fun c hc => hexEncode_chars (md5 buffer) hbytes c (List.take_subset 8 _ hc)
  have htc : ∀ c ∈ sliceLast 4 (natToBase 36 now), isLowerAlnumCh c = true := by
    intro c hc
    exact natToBase36_lower now c (List.drop_subset _ _ hc)
  have hgen : generateShortFilename md5 now buffer extension origFilename
      = 'J' :: '-' :: ((hexEncode (md5 buffer)).take 8
        ++ (sliceLast 4 (natToBase 36 now)
            ++ '.' :: resolvedExt extension origFilename)) := by
    unfold generateShortFilename
    simp only [List.append_assoc]
    rfl
  rw [hgen]
  have hrest8 := @List.take_left' Char ((hexEncode (md5 buffer)).take 8)
    (sliceLast 4 (natToBase 36 now) ++ '.' :: resolvedExt extension origFilename) 8 hhlen
  have hrestd := @List.drop_left' Char ((hexEncode (md5 buffer)).take 8)
    (sliceLast 4 (natToBase 36 now) ++ '.' :: resolvedExt extension origFilename) 8 hhlen
  have ht4 := @List.take_left' Char (sliceLast 4 (natToBase 36 now))
    ('.' :: resolvedExt extension origFilename) 4 htlen
  have htd := @List.drop_left' Char (sliceLast 4 (natToBase 36 now))
    ('.' :: resolvedExt extension origFilename) 4 htlen
  simp only [specIdentifierShape, specExtPart, hrest8, hrestd, ht4, htd]
  simp only [hhlen, htlen, List.all_eq_true, Bool.and_eq_true, beq_iff_eq,
    decide_eq_true_eq]
  and_intros <;> trivial

/-- Witness for C3 amended at a concrete input: declared extension PNG
resolves to png and the generated identifier matches the claimed shape. -/
theorem c3_identifier_shape_amended_witness :
    specIdentifierShape
      (generateShortFilename (fun _ => List.replicate 16 171) 1700000000000
        [1] ("PNG".toList) ("x".toList)) = true := by
  exact c3_identifier_shape_amended (fun _ => List.replicate 16 171) 1700000000000
    [1] ("PNG".toList) ("x".toList) (by decide) (by decide) (by norm_num)
    (by decide) (by decide) (by decide)

/-! ### C4: retry behaviour of the retrieval path -/

theorem getFileInfoM_log_length (f : String) (oracle : Nat → GhOutcome) (k : Nat)
    (hv : isValidFilename f = true) :
    (getFileInfoM f oracle k).2.2.length = 1 := by
  unfold getFileInfoM
  rw [if_neg (by simp [hv])]
  cases h : oracle k <;> simp

theorem getFileInfoM_fail (f : String) (oracle : Nat → GhOutcome) (k : Nat)
    (hv : isValidFilename f = true) (ho : isFoundOutcome (oracle k) = false) :
    (getFileInfoM f oracle k).1.success = false
      ∧ (getFileInfoM f oracle k).2.1 = k + 1
      ∧ (getFileInfoM f oracle k).2.2 = [BackendCall.metadataCall ("files/" ++ f)] := by
  unfold getFileInfoM
  rw [if_neg (by simp [hv])]
  cases h : oracle k with
  | found m => rw [h] at ho; simp [isFoundOutcome] at ho
  | notFound => simp [InfoRes.success]
  | backendError msg => simp [InfoRes.success]

theorem checkFileExistsAux_zero (f : String) (oracle : Nat → GhOutcome) (k : Nat) :
    checkFileExistsAux f oracle 0 k = (none, k, []) := rfl

theorem checkFileExistsAux_succ (f : String) (oracle : Nat → GhOutcome) (fuel k : Nat) :
    checkFileExistsAux f oracle (fuel + 1) k
      = (if (getFileInfoM f oracle k).1.success = true
         then (some (getFileInfoM f oracle k).1, (getFileInfoM f oracle k).2.1,
           (getFileInfoM f oracle k).2.2)
         else ((checkFileExistsAux f oracle fuel (getFileInfoM f oracle k).2.1).1,
           (checkFileExistsAux f oracle fuel (getFileInfoM f oracle k).2.1).2.1,
           (getFileInfoM f oracle k).2.2
             ++ (checkFileExistsAux f oracle fuel (getFileInfoM f oracle k).2.1).2.2)) := by
  rcases hg : getFileInfoM f oracle k with ⟨r, k1, l1⟩
  simp only [checkFileExistsAux, hg]

theorem getFileWithRetryAux_zero (f : String) (oracle : Nat → GhOutcome)
    (download : String → Except String (List Nat)) (k : Nat) :
    getFileWithRetryAux f oracle download 0 k = (none, k, []) := rfl

theorem getFileWithRetryAux_succ (f : String) (oracle : Nat → GhOutcome)
    (download : String → Except String (List Nat)) (fuel k : Nat) :
    getFileWithRetryAux f oracle download (fuel + 1) k
      = (if (getFileFromGitHubM f oracle download k).1.success = true
         then (some (getFileFromGitHubM f oracle download k).1,
           (getFileFromGitHubM f oracle download k).2.1,
           (getFileFromGitHubM f oracle download k).2.2)
         else ((getFileWithRetryAux f oracle download fuel
             (getFileFromGitHubM f oracle download k).2.1).1,
           (getFileWithRetryAux f oracle download fuel
             (getFileFromGitHubM f oracle download k).2.1).2.1,
           (getFileFromGitHubM f oracle download k).2.2
             ++ (getFileWithRetryAux f oracle download fuel
               (getFileFromGitHubM f oracle download k).2.1).2.2)) := by
  rcases hg : getFileFromGitHubM f oracle download k with ⟨r, k1, l1⟩
  simp only [getFileWithRetryAux, hg]

theorem checkFileExistsAux_log_pos (f : String) (oracle : Nat → GhOutcome)
    (fuel k : Nat) (hv : isValidFilename f = true) :
    1 ≤ (checkFileExistsAux f oracle (fuel + 1) k).2.2.length := by
  have h1 := getFileInfoM_log_length f oracle k hv
  rw [checkFileExistsAux_succ]
  by_cases hs : (getFileInfoM f oracle k).1.success = true
  · simp [hs]
    omega
  · simp [hs, List.length_append]
    omega

theorem getFileFromGitHubM_log_pos (f : String) (oracle : Nat → GhOutcome)
    (download : String → Except String (List Nat)) (k : Nat)
    (hv : isValidFilename f = true) :
    1 ≤ (getFileFromGitHubM f oracle download k).2.2.length := by
  unfold getFileFromGitHubM
  rw [if_neg (by simp [hv])]
  cases h : oracle k with
  | notFound => simp
  | backendError m => simp
  | found m =>
    simp only
    split
    · simp
    · split
      · cases hurl : m.downloadUrl with
        | none => simp
        | some url => cases hdl : download url <;> simp [hdl]
      · cases hct : m.content <;> simp [hct]

theorem getFileWithRetryAux_log_pos (f : String) (oracle : Nat → GhOutcome)
    (download : String → Except String (List Nat)) (fuel k : Nat)
    (hv : isValidFilename f = true) :
    1 ≤ (getFileWithRetryAux f oracle download (fuel + 1) k).2.2.length := by
  have h1 := getFileFromGitHubM_log_pos f oracle download k hv
  rw [getFileWithRetryAux_succ]
  by_cases hs : (getFileFromGitHubM f oracle download k).1.success = true
  · simp [hs]
    omega
  · simp [hs, List.length_append]
    omega

theorem getFileFromGitHubM_notFound (f : String) (oracle : Nat → GhOutcome)
    (download : String → Except String (List Nat)) (k : Nat)
    (hv : isValidFilename f = true) (ho : oracle k = GhOutcome.notFound) :
    getFileFromGitHubM f oracle download k
      = (GetRes.err "Not Found", k + 1, [BackendCall.contentCall ("files/" ++ f)]) := by
  unfold getFileFromGitHubM
  rw [if_neg (by simp [hv]), ho]

/-- C4 counterexample: the backend definitively reports the identifier
absent on the very first attempt (the oracle always answers 404), yet the
existence check issues three metadata calls, not one: NotFound is retried
like any other failure. -/
theorem c4_notfound_retry_counterexample :
    (checkFileExistsM "J-aaaaaaaa0000.bin" (fun _ => GhOutcome.notFound) 0).2.2.length = 3
      ∧ ¬((checkFileExistsM "J-aaaaaaaa0000.bin"
            (fun _ => GhOutcome.notFound) 0).2.2.length = 1) := by
  decide

/-- C4 amended: the retrieval path does not distinguish NotFound from
transient errors; checkFileExists and getFileWithRetry retry every
unsuccessful result, NotFound included, up to 3 bounded attempts.  After a
definitive NotFound on the first attempt a further backend call is still
issued, and when every attempt fails the existence check reports absence
only after exactly 3 metadata calls. -/
theorem c4_retry_policy_amended (f : String) (oracle : Nat → GhOutcome)
    (download : String → Except String (List Nat)) (k : Nat)
    (hv : isValidFilename f = true) :
    (oracle k = GhOutcome.notFound →
        2 ≤ (checkFileExistsM f oracle k).2.2.length)
    ∧ ((∀ i, i < 3 → isFoundOutcome (oracle (k + i)) = false) →
        (checkFileExistsM f oracle k).1 = none
          ∧ (checkFileExistsM f oracle k).2.2.length = 3)
    ∧ (oracle k = GhOutcome.notFound →
        2 ≤ (getFileWithRetryM f oracle download k).2.2.length) := by
  refine ⟨?_, ?_, ?_⟩
  · intro ho
    obtain ⟨hs0, hk0, hl0⟩ := getFileInfoM_fail f oracle k hv (by rw [ho]; rfl)
    have hpos : 1 ≤ (checkFileExistsAux f oracle 2 ((getFileInfoM f oracle k).2.1)).2.2.length :=
      checkFileExistsAux_log_pos f oracle 1 ((getFileInfoM f oracle k).2.1) hv
    show 2 ≤ (checkFileExistsAux f oracle (2 + 1) k).2.2.length
    rw [checkFileExistsAux_succ]
    rw [if_neg (by simp [hs0])]
    simp only [hl0, List.length_append, List.length_cons, List.length_nil]
    omega
  · intro hfail
    obtain ⟨hs0, hk0, hl0⟩ := getFileInfoM_fail f oracle k hv
      (by have := hfail 0 (by omega); simpa using this)
    obtain ⟨hs1, hk1, hl1⟩ := getFileInfoM_fail f oracle (k + 1) hv
      (by have := hfail 1 (by omega); simpa using this)
    obtain ⟨hs2, hk2, hl2⟩ := getFileInfoM_fail f oracle (k + 2) hv
      (by have := hfail 2 (by omega); simpa using this)
    constructor
    · show (checkFileExistsAux f oracle (2 + 1) k).1 = none
      rw [checkFileExistsAux_succ, if_neg (by simp [hs0]), hk0]
      show (checkFileExistsAux f oracle (1 + 1) (k + 1)).1 = none
      rw [checkFileExistsAux_succ, if_neg (by simp [hs1]), hk1]
      show (checkFileExistsAux f oracle (0 + 1) (k + 1 + 1)).1 = none
      have harith : k + 1 + 1 = k + 2 := by omega
      rw [checkFileExistsAux_succ, harith, if_neg (by simp [hs2]), hk2]
      rfl
    · show (checkFileExistsAux f oracle (2 + 1) k).2.2.length = 3
      rw [checkFileExistsAux_succ, if_neg (by simp [hs0]), hk0]
      simp only [List.length_append, hl0]
      show 1 + (checkFileExistsAux f oracle (1 + 1) (k + 1)).2.2.length = 3
      rw [checkFileExistsAux_succ, if_neg (by simp [hs1]), hk1]
      simp only [List.length_append, hl1]
      show 1 + (1 + (checkFileExistsAux f oracle (0 + 1) (k + 1 + 1)).2.2.length) = 3
      have harith : k + 1 + 1 = k + 2 := by omega
      rw [checkFileExistsAux_succ, harith, if_neg (by simp [hs2]), hk2]
      simp [hl2, checkFileExistsAux_zero]
  · intro ho
    have hnf := getFileFromGitHubM_notFound f oracle download k hv ho
    have hpos : 1 ≤ (getFileWithRetryAux f oracle download 2 (k + 1)).2.2.length :=
      getFileWithRetryAux_log_pos f oracle download 1 (k + 1) hv
    show 2 ≤ (getFileWithRetryAux f oracle download (2 + 1) k).2.2.length
    rw [getFileWithRetryAux_succ, hnf]
    rw [if_neg (by simp [GetRes.success])]
    simp only [List.length_append, List.length_cons, List.length_nil]
    omega

/-- Witness for C4 amended at a concrete input: with an oracle that always
answers 404 for a valid identifier, the existence check reports absence
after exactly 3 metadata calls, and the body fetch with retry also issues
at least two calls. -/
theorem c4_retry_policy_amended_witness :
    (checkFileExistsM "J-aaaaaaaa0000.bin" (fun _ => GhOutcome.notFound) 0).1 = none
      ∧ (checkFileExistsM "J-aaaaaaaa0000.bin" (fun _ => GhOutcome.notFound) 0).2.2.length
          = 3
      ∧ 2 ≤ (getFileWithRetryM "J-aaaaaaaa0000.bin" (fun _ => GhOutcome.notFound)
          (fun _ => Except.error "boom") 0).2.2.length := by
  have h := c4_retry_policy_amended "J-aaaaaaaa0000.bin" (fun _ => GhOutcome.notFound)
    (fun _ => Except.error "boom") 0 (by decide)
  obtain ⟨h1, h2⟩ := h.2.1 (fun i _ => rfl)
  exact ⟨h1, h2, h.2.2 rfl⟩

/-! ### C8: HTML identifiers are always served as plain text -/

/-- C8: for every GET of an existing identifier whose extension block is
html or htm, with no query parameters, the Content-Type is text/plain, and
a Range header on such a file is ignored: the response is identical to the
response without any Range header. -/
theorem c8_html_as_text (L : List Char → Option String) (filename : List Char)
    (range : Option (List Char)) (data : List Nat)
    (hh : isHtmlName filename = true) :
    (serveResolved L filename none none range data).contentType = some "text/plain"
      ∧ serveResolved L filename none none range data
          = serveResolved L filename none none none data := by
  unfold serveResolved
  simp [hh, isForceText, mk200]

/-- Witness for C8 at a concrete input: an html identifier with a Range
header is served with Content-Type text/plain. -/
theorem c8_html_as_text_witness :
    (serveResolved (fun _ => none) ("J-aaaaaaaa0000.html".toList) none none
        (some ("bytes=0-1".toList)) [1, 2, 3]).contentType = some "text/plain" := by
  exact (c8_html_as_text (fun _ => none) ("J-aaaaaaaa0000.html".toList)
    (some ("bytes=0-1".toList)) [1, 2, 3] (by decide)).1

/-! ### C10: ranges whose start token does not parse -/

/-- C10 counterexample: the claim asserts that a Range header whose start
token yields NaN is always answered 206, but the end bound is still a real
number and its bounds check can fire: bytes=abc-5 on a 3-byte blob is
answered 416, not 206. -/
theorem c10_nan_start_counterexample :
    (serveResolved (fun _ => none) ("J-aaaaaaaa0000.bin".toList) none none
        (some ("bytes=abc-5".toList)) [1, 2, 3]).status = 416 := by
  decide

theorem jsGe_none (b : Int) : jsGe none b = false := rfl

theorem jsGt_none_left (b : Option Int) : jsGt none b = false := by
  cases b <;> rfl

/-- C10 amended: when the start token of a Range header does not parse as a
decimal integer (parseInt yields NaN), every comparison involving start is
false and never fires; the response is then 206 unless the parsed end bound
is at or past the blob length, in which case the end comparison alone fires
and the response is 416.  Malformed starts are never answered 400. -/
theorem c10_nan_start_range (L : List Char → Option String) (filename : List Char)
    (qtext qplain : Option String) (data : List Nat) (rangeChars : List Char)
    (hh : isHtmlName filename = false) (hf : isForceText qtext qplain = false)
    (hne : rangeChars ≠ [])
    (hparse : rangeStartVal (splitChar '-'
        (removeFirstOcc ("bytes=".toList) rangeChars)) = none) :
    (serveResolved L filename qtext qplain (some rangeChars) data).status
      = (if jsGe (rangeEndVal (splitChar '-'
            (removeFirstOcc ("bytes=".toList) rangeChars)) data.length)
            ((data.length : Int)) = true
         then 416 else 206) := by
  obtain ⟨c, cs, rfl⟩ : ∃ c cs, rangeChars = c :: cs := by
    cases rangeChars with
    | nil => exact absurd rfl hne
    | cons c cs => exact ⟨c, cs, rfl⟩
  unfold serveResolved
  simp only [hh, hf, truthyOptChars, Bool.not_false, Bool.and_true, Bool.true_and,
    Option.getD_some]
  unfold rangeResponse
  simp only [hparse, jsGe_none, jsGt_none_left, Bool.false_or, Bool.or_false]
  by_cases hc : jsGe (rangeEndVal (splitChar '-'
      (removeFirstOcc ['b', 'y', 't', 'e', 's', '='] (c :: cs))) data.length)
      ((data.length : Int)) = true
  · simp [hc]
  · simp [hc]

/-- Witness for C10 amended at a concrete input: bytes=abc-0 on a 3-byte
blob has a NaN start and an in-bounds end, and is answered 206. -/
theorem c10_nan_start_range_witness :
    (serveResolved (fun _ => none) ("J-aaaaaaaa0000.bin".toList) none none
        (some ("bytes=abc-0".toList)) [1, 2, 3]).status = 206 := by
  have h := c10_nan_start_range (fun _ => none) ("J-aaaaaaaa0000.bin".toList) none none
    [1, 2, 3] ("bytes=abc-0".toList) (by decide) (by decide) (by decide) (by decide)
  rw [h]
  decide

/-! ### C2: range semantics for well-formed decimal ranges -/

theorem rangeHeader_parts (start : Nat) (endOpt : Option Nat) :
    splitChar '-' (removeFirstOcc ("bytes=".toList) (rangeHeaderChars start endOpt))
      = [natToBase 10 start,
         match endOpt with
         | some e => natToBase 10 e
         | none => []] := by
  unfold rangeHeaderChars
  rw [List.append_assoc, removeFirstOcc_append ("bytes=".toList) _ (by decide)]
  have hnd : '-' ∉ natToBase 10 start := fun hm =>
    absurd (natToBase10_digits start '-' hm) (by decide)
  cases endOpt with
  | none =>
    rw [splitChar_append '-' _ _ hnd]
    rfl
  | some e =>
    rw [splitChar_append '-' _ _ hnd]
    have hnd2 : '-' ∉ natToBase 10 e := fun hm =>
      absurd (natToBase10_digits e '-' hm) (by decide)
    rw [splitChar_not_mem '-' _ hnd2]

theorem rangeHeader_startVal (start : Nat) (endOpt : Option Nat) :
    rangeStartVal (splitChar '-' (removeFirstOcc ("bytes=".toList)
      (rangeHeaderChars start endOpt))) = some ((start : Nat) : Int) := by
  rw [rangeHeader_parts]
  unfold rangeStartVal
  simp only [List.getD, List.getElem?_cons_zero, Option.getD_some]
  exact jsParseInt_natToBase10 start

theorem rangeHeader_endVal (start : Nat) (endOpt : Option Nat) (len : Nat) :
    rangeEndVal (splitChar '-' (removeFirstOcc ("bytes=".toList)
      (rangeHeaderChars start endOpt))) len
      = (match endOpt with
         | some e => some ((e : Nat) : Int)
         | none => some ((len : Int) - 1)) := by
  rw [rangeHeader_parts]
  unfold rangeEndVal
  cases endOpt with
  | none => simp
  | some e =>
    simp only [List.getD, List.getElem?_cons_zero, List.getElem?_cons_succ,
      Option.getD_some]
    rw [if_neg (by simp [natToBase_ne_nil 10 (by omega) e])]
    exact jsParseInt_natToBase10 e

theorem jsNumStr_ofNat (n : Nat) : jsNumStr (some ((n : Nat) : Int)) = Nat.repr n := rfl

theorem jsToIndex_ofNat (len n : Nat) : jsToIndex len (some ((n : Nat) : Int)) = min n len := by
  show (if ((n : Nat) : Int) < 0 then len - min len ((n : Nat) : Int).natAbs
    else min ((n : Nat) : Int).toNat len) = min n len
  rw [if_neg (by omega)]
  simp

theorem rangeResponse_416 (mimeType : String) (data : List Nat) (rangeChars : List Char)
    (s : Nat) (ev : Int)
    (hstart : rangeStartVal (splitChar '-' (removeFirstOcc ("bytes=".toList) rangeChars))
      = some ((s : Nat) : Int))
    (hend : rangeEndVal (splitChar '-' (removeFirstOcc ("bytes=".toList) rangeChars))
      data.length = some ev)
    (hcond : (data.length : Int) ≤ s ∨ (data.length : Int) ≤ ev ∨ ev < s) :
    rangeResponse rangeChars mimeType data
      = { status := 416, contentType := none, contentLength := none,
          contentRange := some ("bytes */" ++ Nat.repr data.length),
          contentDisposition := none, body := [], jsonError := none } := by
  unfold rangeResponse
  simp only [hstart, hend]
  rw [if_pos (by simp [jsGe, jsGt]; omega)]

theorem rangeResponse_206 (mimeType : String) (data : List Nat) (rangeChars : List Char)
    (s e : Nat)
    (hstart : rangeStartVal (splitChar '-' (removeFirstOcc ("bytes=".toList) rangeChars))
      = some ((s : Nat) : Int))
    (hend : rangeEndVal (splitChar '-' (removeFirstOcc ("bytes=".toList) rangeChars))
      data.length = some ((e : Nat) : Int))
    (h1 : s < data.length) (h2 : e < data.length) (h3 : s ≤ e) :
    rangeResponse rangeChars mimeType data
      = { status := 206, contentType := some mimeType,
          contentLength := some (Nat.repr (e - s + 1)),
          contentRange := some ("bytes " ++ Nat.repr s ++ "-" ++ Nat.repr e ++ "/"
            ++ Nat.repr data.length),
          contentDisposition := none,
          body := (data.take (e + 1)).drop s,
          jsonError := none } := by
  unfold rangeResponse
  simp only [hstart, hend]
  rw [if_neg (by simp [jsGe, jsGt]; omega)]
  have hc1 : jsAdd (jsSub (some ((e : Nat) : Int)) (some ((s : Nat) : Int))) (some 1)
      = some (((e - s + 1 : Nat) : Int)) := by
    simp only [jsAdd, jsSub]
    congr 1
    omega
  have hc2 : jsAdd (some ((e : Nat) : Int)) (some 1) = some (((e + 1 : Nat) : Int)) := by
    simp only [jsAdd]
    congr 1
  rw [hc1, hc2]
  simp only [jsNumStr_ofNat, jsToIndex_ofNat]
  rw [Nat.min_eq_left (by omega), Nat.min_eq_left (by omega)]

theorem serveResolved_range (L : List Char → Option String) (filename : List Char)
    (qtext qplain : Option String) (data : List Nat) (c : Char) (cs : List Char)
    (hh : isHtmlName filename = false) (hf : isForceText qtext qplain = false) :
    serveResolved L filename qtext qplain (some (c :: cs)) data
      = rangeResponse (c :: cs)
          ((L (extLower filename)).getD "application/octet-stream") data := by
  unfold serveResolved
  simp [hh, hf, truthyOptChars]

theorem truthyOptChars_none : truthyOptChars none = false := rfl

theorem serveResolved_noRange (L : List Char → Option String) (filename : List Char)
    (qtext qplain : Option String) (data : List Nat) :
    (serveResolved L filename qtext qplain none data).status = 200
      ∧ (serveResolved L filename qtext qplain none data).body = data := by
  unfold serveResolved
  simp only [truthyOptChars_none, Bool.false_and, Bool.false_eq_true, if_false]
  split_ifs <;> simp [mk200, sendChunks_eq]

theorem rangeHeaderChars_cons (start : Nat) (endOpt : Option Nat) :
    ∃ cs, rangeHeaderChars start endOpt = 'b' :: cs := by
  exact ⟨_, rfl⟩

/-- C2: for a GET of an existing blob of size S with Range header
bytes=start-end (end optional, meaning to EOF) on content not forced to
text: if start or the effective end is outside [0, S-1] or start exceeds
end, the response is 416 with Content-Range bytes */S, no body and no
Content-Length; otherwise the response is 206 with Content-Range
bytes start-end/S, Content-Length end-start+1 and exactly the byte slice
[start, end]; in particular bytes=0-(S-1) is answered 206 with the same
bytes as an unranged GET, whose status is 200. -/
theorem c2_range_semantics (L : List Char → Option String) (filename : List Char)
    (qtext qplain : Option String) (data : List Nat) (start : Nat) (endOpt : Option Nat)
    (hh : isHtmlName filename = false) (hf : isForceText qtext qplain = false) :
    ((data.length ≤ start ∨ data.length ≤ endOpt.getD (data.length - 1)
        ∨ endOpt.getD (data.length - 1) < start) →
      (serveResolved L filename qtext qplain
          (some (rangeHeaderChars start endOpt)) data).status = 416
        ∧ (serveResolved L filename qtext qplain
            (some (rangeHeaderChars start endOpt)) data).contentRange
          = some ("bytes */" ++ Nat.repr data.length)
        ∧ (serveResolved L filename qtext qplain
            (some (rangeHeaderChars start endOpt)) data).body = []
        ∧ (serveResolved L filename qtext qplain
            (some (rangeHeaderChars start endOpt)) data).contentLength = none)
    ∧ (start < data.length → endOpt.getD (data.length - 1) < data.length →
        start ≤ endOpt.getD (data.length - 1) →
      (serveResolved L filename qtext qplain
          (some (rangeHeaderChars start endOpt)) data).status = 206
        ∧ (serveResolved L filename qtext qplain
            (some (rangeHeaderChars start endOpt)) data).contentRange
          = some ("bytes " ++ Nat.repr start ++ "-"
              ++ Nat.repr (endOpt.getD (data.length - 1)) ++ "/" ++ Nat.repr data.length)
        ∧ (serveResolved L filename qtext qplain
            (some (rangeHeaderChars start endOpt)) data).contentLength
          = some (Nat.repr (endOpt.getD (data.length - 1) - start + 1))
        ∧ (serveResolved L filename qtext qplain
            (some (rangeHeaderChars start endOpt)) data).body
          = (data.take (endOpt.getD (data.length - 1) + 1)).drop start)
    ∧ (start = 0 → endOpt = some (data.length - 1) → 1 ≤ data.length →
      (serveResolved L filename qtext qplain
          (some (rangeHeaderChars start endOpt)) data).status = 206
        ∧ (serveResolved L filename qtext qplain
            (some (rangeHeaderChars start endOpt)) data).body
          = (serveResolved L filename qtext qplain none data).body
        ∧ (serveResolved L filename qtext qplain none data).status = 200) := by
  obtain ⟨cs, hcons⟩ := rangeHeaderChars_cons start endOpt
  have hserve : serveResolved L filename qtext qplain
      (some (rangeHeaderChars start endOpt)) data
      = rangeResponse (rangeHeaderChars start endOpt)
          ((L (extLower filename)).getD "application/octet-stream") data := by
    rw [hcons]
    exact serveResolved_range L filename qtext qplain data 'b' cs hh hf
  have hstart := rangeHeader_startVal start endOpt
  have hend := rangeHeader_endVal start endOpt data.length
  refine ⟨?_, ?_, ?_⟩
  · intro hcond
    rw [hserve]
    cases endOpt with
    | none =>
      simp only [Option.getD_none] at hcond
      rw [rangeResponse_416 _ _ _ start ((data.length : Int) - 1) hstart hend (by omega)]
      exact ⟨rfl, rfl, rfl, rfl⟩
    | some e =>
      simp only [Option.getD_some] at hcond
      rw [rangeResponse_416 _ _ _ start ((e : Nat) : Int) hstart hend (by omega)]
      exact ⟨rfl, rfl, rfl, rfl⟩
  · intro h1 h2 h3
    rw [hserve]
    cases endOpt with
    | none =>
      simp only [Option.getD_none] at h2 h3 ⊢
      have hS : 1 ≤ data.length := by omega
      have hcast : ((data.length : Int) - 1) = ((data.length - 1 : Nat) : Int) := by omega
      rw [hcast] at hend
      rw [rangeResponse_206 _ _ _ start (data.length - 1) hstart hend h1 h2 h3]
      exact ⟨rfl, rfl, rfl, rfl⟩
    | some e =>
      simp only [Option.getD_some] at h2 h3 ⊢
      rw [rangeResponse_206 _ _ _ start e hstart hend h1 h2 h3]
      exact ⟨rfl, rfl, rfl, rfl⟩
  · intro hs0 hEOF hS
    subst hs0
    subst hEOF
    simp only [Option.getD_some] at hstart hend ⊢
    rw [hserve, rangeResponse_206 _ _ _ 0 (data.length - 1) hstart hend (by omega)
      (by omega) (by omega)]
    obtain ⟨hst, hbody⟩ := serveResolved_noRange L filename qtext qplain data
    refine ⟨rfl, ?_, hst⟩
    rw [hbody]
    simp only [List.drop_zero]
    rw [List.take_of_length_le (by omega)]

/-- Witness for C2 at concrete inputs: on a 3-byte blob, bytes=10-5 is
answered 416 with Content-Range bytes */3 and no body, and bytes=0-2
is answered 206 with exactly the full bytes of the unranged 200 GET. -/
theorem c2_range_semantics_witness :
    (serveResolved (fun _ => none) ("J-aaaaaaaa0000.bin".toList) none none
        (some (rangeHeaderChars 10 (some 5))) [7, 8, 9]).status = 416
      ∧ (serveResolved (fun _ => none) ("J-aaaaaaaa0000.bin".toList) none none
          (some (rangeHeaderChars 10 (some 5))) [7, 8, 9]).body = []
      ∧ (serveResolved (fun _ => none) ("J-aaaaaaaa0000.bin".toList) none none
          (some (rangeHeaderChars 0 (some 2))) [7, 8, 9]).status = 206
      ∧ (serveResolved (fun _ => none) ("J-aaaaaaaa0000.bin".toList) none none
          (some (rangeHeaderChars 0 (some 2))) [7, 8, 9]).body
        = (serveResolved (fun _ => none) ("J-aaaaaaaa0000.bin".toList) none none
            none [7, 8, 9]).body := by
  have h416 := (c2_range_semantics (fun _ => none) ("J-aaaaaaaa0000.bin".toList) none none
    [7, 8, 9] 10 (some 5) (by decide) (by decide)).1 (by right; right; decide)
  have h206 := (c2_range_semantics (fun _ => none) ("J-aaaaaaaa0000.bin".toList) none none
    [7, 8, 9] 0 (some 2) (by decide) (by decide)).2.2 rfl rfl (by decide)
  exact ⟨h416.1, h416.2.2.1, h206.1, h206.2.1⟩

/-! ### C5: existence check strictly precedes the body fetch -/

theorem getFileInfoM_log_nonbody (f : String) (oracle : Nat → GhOutcome) (k : Nat) :
    ∀ c ∈ (getFileInfoM f oracle k).2.2, isBodyCall c = false := by
  unfold getFileInfoM
  split
  · simp
  · cases h : oracle k <;> simp [isBodyCall]

theorem checkFileExistsAux_log_nonbody (f : String) (oracle : Nat → GhOutcome) :
    ∀ fuel k, ∀ c ∈ (checkFileExistsAux f oracle fuel k).2.2, isBodyCall c = false := by
  intro fuel
  induction fuel with
  | zero =>
    intro k c hc
    rw [checkFileExistsAux_zero] at hc
    simp at hc
  | succ fuel ih =>
    intro k c hc
    rw [checkFileExistsAux_succ] at hc
    by_cases hs : (getFileInfoM f oracle k).1.success = true
    · rw [if_pos hs] at hc
      exact getFileInfoM_log_nonbody f oracle k c hc
    · rw [if_neg hs] at hc
      rcases List.mem_append.mp hc with hc | hc
      · exact getFileInfoM_log_nonbody f oracle k c hc
      · exact ih _ c hc

theorem getFileFromGitHubM_log_body (f : String) (oracle : Nat → GhOutcome)
    (download : String → Except String (List Nat)) (k : Nat) :
    ∀ c ∈ (getFileFromGitHubM f oracle download k).2.2, isBodyCall c = true := by
  unfold getFileFromGitHubM
  split
  · simp
  · cases h : oracle k with
    | notFound => simp [isBodyCall]
    | backendError m => simp [isBodyCall]
    | found m =>
      simp only
      split
      · simp [isBodyCall]
      · split
        · cases hurl : m.downloadUrl with
          | none => simp [isBodyCall]
          | some url => cases hdl : download url <;> simp [hdl, isBodyCall]
        · cases hct : m.content <;> simp [hct, isBodyCall]

theorem getFileWithRetryAux_log_body (f : String) (oracle : Nat → GhOutcome)
    (download : String → Except String (List Nat)) :
    ∀ fuel k, ∀ c ∈ (getFileWithRetryAux f oracle download fuel k).2.2,
      isBodyCall c = true := by
  intro fuel
  induction fuel with
  | zero =>
    intro k c hc
    rw [getFileWithRetryAux_zero] at hc
    simp at hc
  | succ fuel ih =>
    intro k c hc
    rw [getFileWithRetryAux_succ] at hc
    by_cases hs : (getFileFromGitHubM f oracle download k).1.success = true
    · rw [if_pos hs] at hc
      exact getFileFromGitHubM_log_body f oracle download k c hc
    · rw [if_neg hs] at hc
      rcases List.mem_append.mp hc with hc | hc
      · exact getFileFromGitHubM_log_body f oracle download k c hc
      · exact ih _ c hc

/-- C5: within every GET request the body fetch is attempted only after the
existence check has completed and succeeded.  If the existence check
reports the identifier absent the request is answered 404 and the call log
holds no body-transfer call at all; any body-transfer call in the log
implies the existence check succeeded; and the log is always a block of
metadata calls followed by a block of body-transfer calls. -/
theorem c5_exists_before_fetch (L : List Char → Option String) (filename : String)
    (qtext qplain : Option String) (range : Option (List Char))
    (oracle : Nat → GhOutcome) (download : String → Except String (List Nat)) :
    ((checkFileExistsM filename oracle 0).1 = none →
        (handleGetM L filename qtext qplain range oracle download).1.status = 404
          ∧ ∀ c ∈ (handleGetM L filename qtext qplain range oracle download).2,
              isBodyCall c = false)
    ∧ ((∃ c ∈ (handleGetM L filename qtext qplain range oracle download).2,
          isBodyCall c = true) →
        (checkFileExistsM filename oracle 0).1 ≠ none)
    ∧ (∃ n, (∀ c ∈ (handleGetM L filename qtext qplain range oracle download).2.take n,
          isBodyCall c = false)
        ∧ ∀ c ∈ (handleGetM L filename qtext qplain range oracle download).2.drop n,
            isBodyCall c = true) := by
  by_cases hb : basicNameOk filename = true
  · rcases hc : checkFileExistsM filename oracle 0 with ⟨r1, k1, l1⟩
    have hc' : checkFileExistsAux filename oracle 3 0 = (r1, k1, l1) := hc
    have hl1 : ∀ c ∈ l1, isBodyCall c = false := by
      intro c hcm
      apply checkFileExistsAux_log_nonbody filename oracle 3 0 c
      rw [hc']
      exact hcm
    cases r1 with
    | none =>
      have hh : handleGetM L filename qtext qplain range oracle download
          = (resp404 "File not found", l1) := by
        unfold handleGetM
        rw [if_neg (by simp [hb]), hc]
      refine ⟨?_, ?_, ?_⟩
      · intro _
        rw [hh]
        exact ⟨rfl, hl1⟩
      · rintro ⟨c, hcm, hcb⟩
        rw [hh] at hcm
        rw [hl1 c hcm] at hcb
        exact absurd hcb (by simp)
      · refine ⟨l1.length, ?_, ?_⟩
        · rw [hh]
          intro c hcm
          exact hl1 c (List.take_subset _ _ hcm)
        · rw [hh]
          simp
    | some info =>
      rcases hr : getFileWithRetryM filename oracle download k1 with ⟨r2, k2, l2⟩
      have hr' : getFileWithRetryAux filename oracle download 3 k1 = (r2, k2, l2) := hr
      have hl2 : ∀ c ∈ l2, isBodyCall c = true := by
        intro c hcm
        apply getFileWithRetryAux_log_body filename oracle download 3 k1 c
        rw [hr']
        exact hcm
      have hlog : (handleGetM L filename qtext qplain range oracle download).2
          = l1 ++ l2 := by
        unfold handleGetM
        rw [if_neg (by simp [hb]), hc]
        simp only
        rw [hr]
        cases r2 with
        | none => rfl
        | some g => cases g <;> rfl
      refine ⟨?_, ?_, ?_⟩
      · intro habs
        simp at habs
      · intro _
        simp
      · refine ⟨l1.length, ?_, ?_⟩
        · rw [hlog, List.take_left]
          exact hl1
        · rw [hlog, List.drop_left]
          exact hl2
  · have hh : handleGetM L filename qtext qplain range oracle download
        = (resp404 "Invalid filename", []) := by
      unfold handleGetM
      rw [if_pos (by simp [Bool.not_eq_true] at hb ⊢; exact hb)]
    refine ⟨?_, ?_, ?_⟩
    · intro _
      rw [hh]
      exact ⟨rfl, by simp⟩
    · rintro ⟨c, hcm, _⟩
      rw [hh] at hcm
      simp at hcm
    · exact ⟨0, by rw [hh]; simp, by rw [hh]; simp⟩

/-- Witness for C5 at a concrete input: with an always-404 oracle the
request is answered 404 and no body-transfer call appears in the log. -/
theorem c5_exists_before_fetch_witness :
    (handleGetM (fun _ => none) "J-aaaaaaaa0000.bin" none none none
        (fun _ => GhOutcome.notFound) (fun _ => Except.error "boom")).1.status = 404
      ∧ ∀ c ∈ (handleGetM (fun _ => none) "J-aaaaaaaa0000.bin" none none none
          (fun _ => GhOutcome.notFound) (fun _ => Except.error "boom")).2,
          isBodyCall c = false := by
  exact (c5_exists_before_fetch (fun _ => none) "J-aaaaaaaa0000.bin" none none none
    (fun _ => GhOutcome.notFound) (fun _ => Except.error "boom")).1 (by decide)

/-! ### C7: inline transfer below 1 MiB, direct download above -/

/-- C7: for a successful getFileFromGitHub call against a consistent
backend response for stored bytes B (size field equal to the byte count,
inline content equal to the base64 of B, a nonempty download url on which
the fetch returns B): when the reported size exceeds 1 MiB the bytes are
obtained through the direct download url and the log records the download
call; when it is at most 1 MiB they are decoded from the inline base64
content and no download call is issued; in both branches the returned
buffer is exactly the stored bytes B. -/
theorem c7_size_branch (f : String) (oracle : Nat → GhOutcome)
    (download : String → Except String (List Nat)) (k : Nat)
    (B : List Nat) (m : GhMeta) (u : String)
    (hv : isValidFilename f = true)
    (ho : oracle k = GhOutcome.found m)
    (hB : ∀ x ∈ B, x < 256)
    (hcontent : m.content = some (b64Encode B))
    (hurl : m.downloadUrl = some u) (hu : u ≠ "")
    (hdl : download u = Except.ok B)
    (hsize : m.size = B.length) :
    (getFileFromGitHubM f oracle download k).1 = GetRes.ok B B.length m.sha
      ∧ (getFileFromGitHubM f oracle download k).2.2
        = (if 1048576 < B.length
           then [BackendCall.contentCall ("files/" ++ f), BackendCall.downloadCall u]
           else [BackendCall.contentCall ("files/" ++ f)]) := by
  unfold getFileFromGitHubM
  rw [if_neg (by simp [hv]), ho]
  simp only
  rw [if_neg (by simp [hurl, truthyUrl, hu])]
  rw [hsize]
  by_cases hbig : 1048576 < B.length
  · rw [if_pos hbig, hurl]
    simp only [hdl]
    rw [if_pos hbig]
    constructor <;> trivial
  · rw [if_neg hbig, hcontent]
    simp only [b64_roundtrip B hB]
    rw [if_neg hbig]
    constructor <;> trivial

/-- Witness for C7 at a concrete input: a 3-byte blob served through the
inline base64 path round-trips exactly. -/
theorem c7_size_branch_witness :
    (getFileFromGitHubM "J-aaaaaaaa0000.bin"
        (fun _ => GhOutcome.found
          { size := 3, sha := "s", name := "n",
            content := some (b64Encode [7, 8, 9]), downloadUrl := some "u" })
        (fun _ => Except.ok [7, 8, 9]) 0).1 = GetRes.ok [7, 8, 9] 3 "s" := by
  have h := c7_size_branch "J-aaaaaaaa0000.bin"
    (fun _ => GhOutcome.found
      { size := 3, sha := "s", name := "n",
        content := some (b64Encode [7, 8, 9]), downloadUrl := some "u" })
    (fun _ => Except.ok [7, 8, 9]) 0 [7, 8, 9]
    { size := 3, sha := "s", name := "n",
      content := some (b64Encode [7, 8, 9]), downloadUrl := some "u" } "u"
    (by decide) rfl (by decide) rfl rfl (by decide) rfl rfl
  exact h.1
